import Mathlib

/-!
Verification of the setting-extraction/rewrite engine of the
`anking_notes_addon` repository (src/src/anking_notetypes/config.py and
notetype_setting_definitions.py), against its natural-language specification.

Python strings are modelled as `List Char` (`PyStr`); Python exceptions as an
explicit `Except PyExc` result; the shared mutable `tmpls` list of a notetype
dict as a reference into an explicit heap (`Heap`), which makes the shallow
`dict.copy()` of the source observable.  Regular-expression location
(`re.search`) is modelled by a small backtracking matcher with Python's
leftmost/greedy/lazy priorities, over pattern ASTs transcribed from the
source's pattern strings.  All recursion is fuel-based structural recursion so
that every definition evaluates inside the kernel.
-/

/-- Python `str` modelled as a list of characters. -/
abbrev PyStr := List Char

namespace PyString

/-- Python's `needle in hay` substring test. -/
def isSubstring (needle hay : PyStr) : Bool :=
  match hay with
  | [] => needle.isEmpty
  | _ :: t => needle.isPrefixOf hay || isSubstring needle t

/-- `OccursAt needle hay i` holds when `needle` appears in `hay` at offset `i`. -/
def OccursAt (needle hay : PyStr) (i : Nat) : Prop :=
  ∃ pre post, hay = pre ++ needle ++ post ∧ pre.length = i

/-- Fuel-driven core of Python `str.replace(old, new, count)`.  Scans left to
right, replacing leftmost non-overlapping occurrences of `old`; an empty `old`
matches before every character and once at the end (CPython behavior).  A
`none` count means unbounded.  The fuel only needs to exceed the length of the
scanned string. -/
def pyReplaceFuel (old new : PyStr) : Nat → PyStr → Option Nat → PyStr
  | _, s, some 0 => s
  | 0, s, _ => s
  | _ + 1, [], _ => if old.isEmpty then new else []
  | fuel + 1, c :: rest, cnt =>
      if old.isEmpty then
        new ++ c :: pyReplaceFuel old new fuel rest (cnt.map (· - 1))
      else if old.isPrefixOf (c :: rest) then
        new ++ pyReplaceFuel old new fuel ((c :: rest).drop old.length) (cnt.map (· - 1))
      else
        c :: pyReplaceFuel old new fuel rest cnt

/-- Python `s.replace(old, new, 1)`. -/
def pyReplace1 (s old new : PyStr) : PyStr := pyReplaceFuel old new (s.length + 1) s (some 1)

/-- Python `s.replace(old, new)` (all occurrences). -/
def pyReplaceAll (s old new : PyStr) : PyStr := pyReplaceFuel old new (s.length + 1) s none

/-- The decimal digit character for `n < 10` (only ever applied below 10). -/
def digitChar : Nat → Char
  | 0 => '0' | 1 => '1' | 2 => '2' | 3 => '3' | 4 => '4'
  | 5 => '5' | 6 => '6' | 7 => '7' | 8 => '8' | _ => '9'

/-- Fuel-driven decimal rendering of a natural number. -/
def natDigitsGo : Nat → Nat → PyStr
  | 0, _ => []
  | fuel + 1, n =>
      if n < 10 then [digitChar n]
      else natDigitsGo fuel (n / 10) ++ [digitChar (n % 10)]

/-- Decimal digit string of a natural number, as Python's `str` renders it. -/
def natDigits (n : Nat) : PyStr := natDigitsGo (n + 1) n

/-- Python `str(i)` for an `int`. -/
def intToPyStr (i : Int) : PyStr :=
  if i < 0 then '-' :: natDigits i.natAbs else natDigits i.natAbs

/-- Accumulating parse of a run of decimal digits; `none` on any non-digit. -/
def parseDigitsAcc (acc : Nat) : PyStr → Option Nat
  | [] => some acc
  | c :: t =>
      if '0' ≤ c ∧ c ≤ '9' then parseDigitsAcc (acc * 10 + (c.toNat - 48)) t else none

/-- Parse of a nonempty all-digit string. -/
def parseNatDigits (s : PyStr) : Option Nat :=
  match s with
  | [] => none
  | _ => parseDigitsAcc 0 s

/-- ASCII whitespace recognized by Python's `int()` stripping. -/
def isPySpace (c : Char) : Bool := c = ' ' ∨ c = '\t' ∨ c = '\n' ∨ c = '\r'

/-- Python `int(s)`: strips surrounding whitespace, allows one sign, then
requires a nonempty run of decimal digits.  (CPython additionally allows
single underscores between digits; no literal handled by the add-on contains
one, and this model rejects them.)  `none` is the `ValueError` case. -/
def pyInt (s : PyStr) : Option Int :=
  let t := ((s.dropWhile isPySpace).reverse.dropWhile isPySpace).reverse
  match t with
  | '-' :: rest => (parseNatDigits rest).map (fun n => -(Int.ofNat n))
  | '+' :: rest => (parseNatDigits rest).map (fun n => Int.ofNat n)
  | _ => (parseNatDigits t).map (fun n => Int.ofNat n)

end PyString

/-! ## A small backtracking regular-expression matcher

Models the fragment of Python `re` used by the add-on's locator patterns:
literals, character classes (possibly negated), concatenation, alternation,
greedy and lazy `*`/`+`/`?`, and numbered capturing groups.  `reSearch`
implements `re.search`: leftmost starting position, with Python's backtracking
priorities (alternation prefers the left branch, greedy repetition prefers
more, lazy repetition prefers fewer; a repetition never accepts an
empty-width iteration). -/

/-- Pattern AST for the fragment of Python `re` used by the source. -/
inductive Re where
  | eps : Re
  | lit : Char → Re
  | cls : List Char → Bool → Re
  | seq : Re → Re → Re
  | alt : Re → Re → Re
  | star : Re → Bool → Re
  | group : Nat → Re → Re
deriving DecidableEq, Repr

namespace Re

/-- Concatenation of a list of patterns. -/
def rcat (l : List Re) : Re := l.foldr Re.seq Re.eps

/-- A literal string pattern. -/
def rseq (cs : PyStr) : Re := cs.foldr (fun c r => Re.seq (Re.lit c) r) Re.eps

/-- `r+` (one or more), greedy when `lzy = false`. -/
def rplus (r : Re) (lzy : Bool) : Re := Re.seq r (Re.star r lzy)

/-- `r?` (zero or one), greedy when `lzy = false`. -/
def ropt (r : Re) (lzy : Bool) : Re := if lzy then Re.alt Re.eps r else Re.alt r Re.eps

/-- `.` — any character except a newline. -/
def rdot : Re := Re.cls ['\n'] true

/-- `[\w\W]` — any character at all. -/
def rany : Re := Re.cls [] true

/-- `\d` — a decimal digit. -/
def rdigit : Re := Re.cls (("0123456789").toList) false

/-- Structural size, used only to pick a sufficient fuel. -/
def size : Re → Nat
  | eps => 1
  | lit _ => 1
  | cls _ _ => 1
  | seq a b => size a + size b + 1
  | alt a b => size a + size b + 1
  | star a _ => size a + 1
  | group _ a => size a + 1

end Re

/-- Captured group spans: (group index, start offset, end offset). -/
abbrev ReCaps := List (Nat × Nat × Nat)

/-- Fuel-driven backtracking matcher in continuation-passing style.  `pos` is
the current offset into `s`; the continuation receives the offset and the
captures after the current pattern.  Alternation tries the left branch first;
a greedy star tries an additional iteration before the continuation, a lazy
star after; an iteration of zero width is rejected (Python's behavior for the
repetitions that occur in the source, whose bodies always consume). -/
def reMatchCore (s : PyStr) :
    Nat → Re → Nat → ReCaps → (Nat → ReCaps → Option (Nat × ReCaps)) →
    Option (Nat × ReCaps)
  | 0, _, _, _, _ => none
  | fuel + 1, r, pos, caps, k =>
      match r with
      | .eps => k pos caps
      | .lit c =>
          match s.get? pos with
          | some c2 => if c2 = c then k (pos + 1) caps else none
          | none => none
      | .cls cs neg =>
          match s.get? pos with
          | some c2 => if (cs.contains c2) ≠ neg then k (pos + 1) caps else none
          | none => none
      | .seq a b => reMatchCore s fuel a pos caps (fun p c2 => reMatchCore s fuel b p c2 k)
      | .alt a b =>
          match reMatchCore s fuel a pos caps k with
          | some res => some res
          | none => reMatchCore s fuel b pos caps k
      | .group n a => reMatchCore s fuel a pos caps (fun p c2 => k p ((n, pos, p) :: c2))
      | .star a lzy =>
          if lzy then
            match k pos caps with
            | some res => some res
            | none =>
                reMatchCore s fuel a pos caps (fun p c2 =>
                  if p = pos then none else reMatchCore s fuel (Re.star a lzy) p c2 k)
          else
            match
              reMatchCore s fuel a pos caps (fun p c2 =>
                if p = pos then none else reMatchCore s fuel (Re.star a lzy) p c2 k)
            with
            | some res => some res
            | none => k pos caps

/-- A successful `re` match: full-match span plus capture spans. -/
structure ReMatch where
  start : Nat
  stop : Nat
  caps : ReCaps
deriving DecidableEq, Repr

/-- Fuel sufficient for any backtracking path of `r` over `s`. -/
def reFuel (r : Re) (s : PyStr) : Nat := (r.size + 2) * (s.length + 2)

/-- Try to match `r` at offset `pos` of `s` (Python `re.match` at an offset). -/
def reMatchAt (r : Re) (s : PyStr) (pos : Nat) : Option ReMatch :=
  match reMatchCore s (reFuel r s) r pos [] (fun p c => some (p, c)) with
  | some (stop, caps) => some ⟨pos, stop, caps⟩
  | none => none

/-- Scan starting offsets left to right, as `re.search` does. -/
def reSearchFrom (r : Re) (s : PyStr) : Nat → Nat → Option ReMatch
  | 0, _ => none
  | fuel + 1, pos =>
      match reMatchAt r s pos with
      | some m => some m
      | none => if pos < s.length then reSearchFrom r s fuel (pos + 1) else none

/-- Python `re.search(r, s)`: the match at the leftmost feasible offset. -/
def reSearch (r : Re) (s : PyStr) : Option ReMatch :=
  reSearchFrom r s (s.length + 1) 0

/-- The slice of `s` between offsets `a` and `b`. -/
def strSlice (s : PyStr) (a b : Nat) : PyStr := (s.drop a).take (b - a)

/-- `m.group(0)`: the full matched text. -/
def ReMatch.matchedStr (m : ReMatch) (s : PyStr) : PyStr := strSlice s m.start m.stop

/-- `m.span(n)`: the recorded span of group `n`, if the group participated
(the most recent capture wins, as in Python). -/
def ReMatch.groupSpan (m : ReMatch) (n : Nat) : Option (Nat × Nat) :=
  (m.caps.find? (fun t => t.1 = n)).map (fun t => t.2)

/-- `m.group(n)`: the text captured by group `n`, if it participated. -/
def ReMatch.groupStr (m : ReMatch) (n : Nat) (s : PyStr) : Option PyStr :=
  (m.groupSpan n).map (fun sp => strSlice s sp.1 sp.2)

/-! ## Setting descriptors (config.py / notetype_setting_definitions.py)

`SettingConfig` models one entry of the static `setting_configs` table: the
dict keys actually read by the engine become fields (absent keys become the
`.get` defaults of the source).  `name`/`setting_name` are the identity key
stamped onto each config by the table loader. -/

/-- The Python exceptions the engine can raise (messages abridged where the
claims do not inspect them). -/
inductive PyExc where
  | notetypeParseException : PyStr → PyExc
  | valueError : PyExc
  | typeError : PyExc
  | keyError : PyExc
  | assertionError : PyExc
  | attributeError : PyExc
  | exception : PyStr → PyExc
deriving DecidableEq, Repr

/-- A decoded setting value (Python `bool` / `str` / `int`). -/
inductive SettingValue where
  | b : Bool → SettingValue
  | s : PyStr → SettingValue
  | i : Int → SettingValue
deriving DecidableEq, Repr

/-- Python truthiness of a setting value. -/
def SettingValue.truthy : SettingValue → Bool
  | .b v => v
  | .s v => ¬ v.isEmpty
  | .i v => v ≠ 0

/-- Python `str(value)`. -/
def SettingValue.pyStr : SettingValue → PyStr
  | .b true => ("True").toList
  | .b false => ("False").toList
  | .s v => v
  | .i v => PyString.intToPyStr v

/-- Python truthiness of `config.get(key, False)` for an optional string key. -/
def truthyOptStr : Option PyStr → Bool
  | some v => ¬ v.isEmpty
  | none => false

/-- One entry of the `setting_configs` table.  `type_` and `ui_section` stand
for the source's `type` and `section` keys (Lean keywords); display-only keys
(`text`, `tooltip`) are omitted as the engine never reads them. -/
structure SettingConfig where
  name : PyStr := []
  setting_name : PyStr := []
  type_ : PyStr
  file : PyStr
  regex : Re := Re.eps
  replacement_pairs : List (PyStr × PyStr) := []
  options : List PyStr := []
  with_inherit_option : Bool := false
  hint_button_setting : Option PyStr := none
  configurable_field_name : Option PyStr := none
  ui_section : PyStr := []
deriving DecidableEq, Repr

/-- ` +` -/
def rsp1 : Re := Re.rplus (Re.lit ' ') false

/-- ` *` -/
def rsp0 : Re := Re.star (Re.lit ' ') false

/-- `(?:\\.|[^"\\])` — one character of a double-quoted string, escapes
allowed (the source's `QUOT_STR_RE`). -/
def rquotChar : Re := Re.alt (Re.seq (Re.lit '\\') Re.rany) (Re.cls ['"', '\\'] true)

/-- `var +autoflip += +(false|true)` — the `autoflip` checkbox locator. -/
def autoflipRegex : Re :=
  Re.rcat [Re.rseq (("var").toList), rsp1, Re.rseq (("autoflip").toList), rsp1,
    Re.lit '=', rsp1,
    Re.group 1 (Re.alt (Re.rseq (("false").toList)) (Re.rseq (("true").toList)))]

/-- `var +seconds += +([^ /\n]*)` — the `timer_secs` number locator. -/
def timerSecsRegex : Re :=
  Re.rcat [Re.rseq (("var").toList), rsp1, Re.rseq (("seconds").toList), rsp1,
    Re.lit '=', rsp1,
    Re.group 1 (Re.star (Re.cls [' ', '/', '\n'] true) false)]

/-- `html *{[^}]*?font-size: (\d+)px;` — the `font_size` number locator. -/
def fontSizeRegex : Re :=
  Re.rcat [Re.rseq (("html").toList), rsp0, Re.lit '\x7b',
    Re.star (Re.cls ['\x7d'] true) true,
    Re.rseq (("font-size: ").toList),
    Re.group 1 (Re.rplus Re.rdigit false),
    Re.rseq (("px;").toList)]

/-- `var +revealNextClozeMode += +"([^"]*?)"` — the dropdown locator. -/
def revealNextClozeModeRegex : Re :=
  Re.rcat [Re.rseq (("var").toList), rsp1, Re.rseq (("revealNextClozeMode").toList),
    rsp1, Re.lit '=', rsp1, Re.lit '"',
    Re.group 1 (Re.star (Re.cls ['"'] true) true), Re.lit '"']

/-- `b *{[^}]*?color: (.+?)( +!important)?;` — the `bold_text_color` locator. -/
def boldTextColorRegex : Re :=
  Re.rcat [Re.lit 'b', rsp0, Re.lit '\x7b', Re.star (Re.cls ['\x7d'] true) true,
    Re.rseq (("color: ").toList),
    Re.group 1 (Re.rplus Re.rdot true),
    Re.ropt (Re.group 2 (Re.seq rsp1 (Re.rseq (("!important").toList)))) false,
    Re.lit ';']

/-- `var +tagID += +"((?:\\.|[^"\\])*?)"` — the `front_signal_tag` text locator. -/
def tagIdRegex : Re :=
  Re.rcat [Re.rseq (("var").toList), rsp1, Re.rseq (("tagID").toList), rsp1,
    Re.lit '=', rsp1, Re.lit '"', Re.group 1 (Re.star rquotChar true), Re.lit '"']

/-- `\.timer *{[^}]*?display: (block|none);` — the `timer` re_checkbox locator. -/
def timerRegex : Re :=
  Re.rcat [Re.lit '.', Re.rseq (("timer").toList), rsp0, Re.lit '\x7b',
    Re.star (Re.cls ['\x7d'] true) true,
    Re.rseq (("display: ").toList),
    Re.group 1 (Re.alt (Re.rseq (("block").toList)) (Re.rseq (("none").toList))),
    Re.lit ';']

/-- `setting_configs["autoflip"]` (a `checkbox` descriptor on the front blob). -/
def autoflipConfig : SettingConfig :=
  { name := ("autoflip").toList
    setting_name := ("autoflip").toList
    type_ := ("checkbox").toList
    file := ("front").toList
    regex := autoflipRegex }

/-- `setting_configs["timer_secs"]` (a `number` descriptor on the front blob). -/
def timerSecsConfig : SettingConfig :=
  { name := ("timer_secs").toList
    setting_name := ("timer_secs").toList
    type_ := ("number").toList
    file := ("front").toList
    regex := timerSecsRegex
    ui_section := ("Timer").toList }

/-- `setting_configs["font_size"]` (a `number` descriptor on the style blob). -/
def fontSizeConfig : SettingConfig :=
  { name := ("font_size").toList
    setting_name := ("font_size").toList
    type_ := ("number").toList
    file := ("style").toList
    regex := fontSizeRegex
    ui_section := ("Font").toList }

/-- `setting_configs["reveal_next_cloze_mode"]` (a `dropdown` descriptor). -/
def revealNextClozeModeConfig : SettingConfig :=
  { name := ("reveal_next_cloze_mode").toList
    setting_name := ("reveal_next_cloze_mode").toList
    type_ := ("dropdown").toList
    file := ("back").toList
    regex := revealNextClozeModeRegex
    options := [("cloze").toList, ("word").toList]
    ui_section := ("Clozes").toList }

/-- `setting_configs["bold_text_color"]` (a `color` descriptor with the
`with_inherit_option` flag). -/
def boldTextColorConfig : SettingConfig :=
  { name := ("bold_text_color").toList
    setting_name := ("bold_text_color").toList
    type_ := ("color").toList
    file := ("style").toList
    regex := boldTextColorRegex
    with_inherit_option := true
    ui_section := ("Colors").toList }

/-- `setting_configs["front_signal_tag"]` (a `text` descriptor). -/
def frontSignalTagConfig : SettingConfig :=
  { name := ("front_signal_tag").toList
    setting_name := ("front_signal_tag").toList
    type_ := ("text").toList
    file := ("front").toList
    regex := tagIdRegex
    ui_section := ("Tags").toList }

/-- `setting_configs["timer"]` (a `re_checkbox` descriptor on the style blob). -/
def timerConfig : SettingConfig :=
  { name := ("timer").toList
    setting_name := ("timer").toList
    type_ := ("re_checkbox").toList
    file := ("style").toList
    regex := timerRegex
    replacement_pairs := [(("none").toList, ("block").toList)]
    ui_section := ("Timer").toList }

/-- `setting_configs["field_order"]` (the `order` descriptor; its auxiliary
pattern keys `elem_re`/`name_re`/`has_to_contain` are display/packing data the
engine never dispatches on and are omitted). -/
def fieldOrderConfig : SettingConfig :=
  { name := ("field_order").toList
    setting_name := ("field_order").toList
    type_ := ("order").toList
    file := ("back").toList
    regex := Re.star Re.rany false
    ui_section := ("Fields").toList }

/-- `disable_field_setting_config(field_name, default)`: a `wrap_checkbox`
descriptor with pattern `(<!--)?{{#F}}[\w\W]+?{{/F}}(-->)?` (the field name is
interpolated literally, as in the source). -/
def disable_field_setting_config (fieldName : PyStr) : SettingConfig :=
  { name := ("disable_").toList ++ fieldName
    setting_name := ("disable_").toList ++ fieldName
    type_ := ("wrap_checkbox").toList
    file := ("back").toList
    regex :=
      Re.rcat [Re.ropt (Re.group 1 (Re.rseq (("<!--").toList))) false,
        Re.rseq (("\x7b\x7b#").toList), Re.rseq fieldName, Re.rseq (("\x7d\x7d").toList),
        Re.rplus Re.rany true,
        Re.rseq (("\x7b\x7b/").toList), Re.rseq fieldName, Re.rseq (("\x7d\x7d").toList),
        Re.ropt (Re.group 2 (Re.rseq (("-->").toList))) false]
    ui_section := ("Fields").toList }

/-- `button_shortcut_setting_config(field_name, default)`: a `shortcut`
descriptor tagged with `configurable_field_name`, pattern
`var+ ButtonShortcuts *= *{[^}]*?"F" *: *"(Q*?)"`. -/
def button_shortcut_setting_config (fieldName : PyStr) : SettingConfig :=
  { name := ("btn_shortcut_").toList ++ fieldName
    setting_name := ("btn_shortcut_").toList ++ fieldName
    type_ := ("shortcut").toList
    file := ("back").toList
    regex :=
      Re.rcat [Re.rseq (("va").toList), Re.rplus (Re.lit 'r') false,
        Re.rseq ((" ButtonShortcuts").toList), rsp0, Re.lit '=', rsp0, Re.lit '\x7b',
        Re.star (Re.cls ['\x7d'] true) true,
        Re.lit '"', Re.rseq fieldName, Re.lit '"', rsp0, Re.lit ':', rsp0,
        Re.lit '"', Re.group 1 (Re.star rquotChar true), Re.lit '"']
    configurable_field_name := some fieldName
    ui_section := ("Hint Buttons").toList }

/-! ## The codec classes (config.py)

One namespace per `NoteTypeSetting` subclass; `extractValue` and `setValue`
are `_extract_setting_value` and `_set_setting_value`.  In every pattern the
source feeds to these codecs, group 1 participates whenever the search
succeeds; a non-participating group (Python would hand back `None` and fail
soon after on attribute/assert/argument errors) is modelled as an error. -/

open PyString

namespace ReCheckboxSetting

/-- `checked` of `ReCheckboxSetting._extract_setting_value`: every on-literal
(second pair member) is present in the section. -/
def checkedIn (cfg : SettingConfig) (sec : PyStr) : Bool :=
  cfg.replacement_pairs.all (fun p => isSubstring p.2 sec)

/-- `unchecked` of `ReCheckboxSetting._extract_setting_value`: every
off-literal (first pair member) is present in the section. -/
def uncheckedIn (cfg : SettingConfig) (sec : PyStr) : Bool :=
  cfg.replacement_pairs.all (fun p => isSubstring p.1 sec)

/-- `ReCheckboxSetting._extract_setting_value`. -/
def extractValue (cfg : SettingConfig) (sec : PyStr) : Except PyExc SettingValue :=
  if ¬ ((checkedIn cfg sec || uncheckedIn cfg sec) && !(checkedIn cfg sec && uncheckedIn cfg sec)) then
    .error (.notetypeParseException cfg.name)
  else
    .ok (.b (checkedIn cfg sec))

/-- `ReCheckboxSetting._set_setting_value`: replaces every occurrence, pair
by pair (`str.replace` without a count). -/
def setValue (cfg : SettingConfig) (sec : PyStr) (v : SettingValue) : Except PyExc PyStr :=
  .ok (cfg.replacement_pairs.foldl
    (fun acc p => if v.truthy then pyReplaceAll acc p.1 p.2 else pyReplaceAll acc p.2 p.1)
    sec)

end ReCheckboxSetting

namespace CheckboxSetting

/-- `CheckboxSetting._extract_setting_value`. -/
def extractValue (cfg : SettingConfig) (sec : PyStr) : Except PyExc SettingValue :=
  match reSearch cfg.regex sec with
  | none => .error .attributeError
  | some m =>
      match m.groupStr 1 sec with
      | none => .error .assertionError
      | some g =>
          if g = ("true").toList ∨ g = ("false").toList then .ok (.b (g = ("true").toList))
          else .error .assertionError

/-- `CheckboxSetting._set_setting_value`. -/
def setValue (cfg : SettingConfig) (sec : PyStr) (v : SettingValue) : Except PyExc PyStr := do
  let cur ← extractValue cfg sec
  let curStr := if cur.truthy then ("true").toList else ("false").toList
  let newStr := if v.truthy then ("true").toList else ("false").toList
  .ok (pyReplace1 sec curStr newStr)

end CheckboxSetting

namespace LineEditSetting

/-- `LineEditSetting._extract_setting_value`. -/
def extractValue (cfg : SettingConfig) (sec : PyStr) : Except PyExc SettingValue :=
  match reSearch cfg.regex sec with
  | none => .error .attributeError
  | some m =>
      match m.groupStr 1 sec with
      | none => .error .attributeError
      | some g => .ok (.s g)

/-- `LineEditSetting._set_setting_value`: splices the new string into the
span of group 1. -/
def setValue (cfg : SettingConfig) (sec : PyStr) (v : SettingValue) : Except PyExc PyStr :=
  match reSearch cfg.regex sec with
  | none => .error .attributeError
  | some m =>
      match m.groupSpan 1 with
      | none => .error .attributeError
      | some sp =>
          match v with
          | .s vs => .ok (sec.take sp.1 ++ vs ++ sec.drop sp.2)
          | _ => .error .typeError

end LineEditSetting

namespace FontFamilySetting

/-- `FontFamilySetting._extract_setting_value` (body identical to
`LineEditSetting`'s in the source). -/
def extractValue (cfg : SettingConfig) (sec : PyStr) : Except PyExc SettingValue :=
  LineEditSetting.extractValue cfg sec

/-- `FontFamilySetting._set_setting_value` (body identical to
`LineEditSetting`'s in the source). -/
def setValue (cfg : SettingConfig) (sec : PyStr) (v : SettingValue) : Except PyExc PyStr :=
  LineEditSetting.setValue cfg sec v

end FontFamilySetting

namespace ShortcutSetting

/-- `ShortcutSetting._extract_setting_value` (body identical to
`LineEditSetting`'s in the source). -/
def extractValue (cfg : SettingConfig) (sec : PyStr) : Except PyExc SettingValue :=
  LineEditSetting.extractValue cfg sec

/-- `ShortcutSetting._set_setting_value` (body identical to
`LineEditSetting`'s in the source). -/
def setValue (cfg : SettingConfig) (sec : PyStr) (v : SettingValue) : Except PyExc PyStr :=
  LineEditSetting.setValue cfg sec v

end ShortcutSetting

namespace DropdownSetting

/-- `DropdownSetting._extract_setting_value`. -/
def extractValue (cfg : SettingConfig) (sec : PyStr) : Except PyExc SettingValue :=
  LineEditSetting.extractValue cfg sec

/-- `DropdownSetting._set_setting_value`: replaces the first occurrence of
the current token with the new one. -/
def setValue (cfg : SettingConfig) (sec : PyStr) (v : SettingValue) : Except PyExc PyStr := do
  let cur ← extractValue cfg sec
  match cur, v with
  | .s curS, .s vS => .ok (pyReplace1 sec curS vS)
  | _, _ => .error .typeError

end DropdownSetting

/-- Python `setting_value != "transparent"` for an arbitrary config value
(a non-string compares unequal to a string). -/
def pyNeTransparent : SettingValue → Bool
  | .s v => v ≠ ("transparent").toList
  | _ => true

namespace ColorSetting

/-- `ColorSetting._extract_setting_value`: with the inherit option, any
stored token other than `transparent` is reported as `inherit`. -/
def extractValue (cfg : SettingConfig) (sec : PyStr) : Except PyExc SettingValue :=
  match reSearch cfg.regex sec with
  | none => .error .attributeError
  | some m =>
      match m.groupStr 1 sec with
      | none => .error .attributeError
      | some g =>
          if cfg.with_inherit_option && g ≠ ("transparent").toList then
            .ok (.s (("inherit").toList))
          else .ok (.s g)

/-- `ColorSetting._set_setting_value`: replaces the first occurrence of the
*decoded* current value (which, with the inherit option, is the virtual token
`inherit`, not the stored token). -/
def setValue (cfg : SettingConfig) (sec : PyStr) (v : SettingValue) : Except PyExc PyStr := do
  let cur ← extractValue cfg sec
  match cur with
  | .s curS =>
      if cfg.with_inherit_option && pyNeTransparent v then
        .ok (pyReplace1 sec curS (("inherit").toList))
      else
        match v with
        | .s vS => .ok (pyReplace1 sec curS vS)
        | _ => .error .typeError
  | _ => .error .typeError

end ColorSetting

namespace NumberEditSetting

/-- `NumberEditSetting._extract_setting_value`: `int()` of group 1;
a malformed literal is a `ValueError`, not a `NotetypeParseException`. -/
def extractValue (cfg : SettingConfig) (sec : PyStr) : Except PyExc SettingValue :=
  match reSearch cfg.regex sec with
  | none => .error .attributeError
  | some m =>
      match m.groupStr 1 sec with
      | none => .error .typeError
      | some g =>
          match pyInt g with
          | some n => .ok (.i n)
          | none => .error .valueError

/-- `NumberEditSetting._set_setting_value`: replaces the first occurrence of
`str(current)` with `str(new)`. -/
def setValue (cfg : SettingConfig) (sec : PyStr) (v : SettingValue) : Except PyExc PyStr := do
  let cur ← extractValue cfg sec
  match cur with
  | .i n => .ok (pyReplace1 sec (intToPyStr n) v.pyStr)
  | _ => .error .typeError

end NumberEditSetting

namespace NoteTypeSetting

/-- The codec dispatch of `NoteTypeSetting.from_config`, on the side of
value extraction: the virtual `_extract_setting_value` of the subclass
`from_config` would have instantiated. -/
def extractSettingValue (cfg : SettingConfig) (sec : PyStr) : Except PyExc SettingValue :=
  if cfg.type_ = ("checkbox").toList then CheckboxSetting.extractValue cfg sec
  else if cfg.type_ = ("re_checkbox").toList then ReCheckboxSetting.extractValue cfg sec
  else if cfg.type_ = ("text").toList then LineEditSetting.extractValue cfg sec
  else if cfg.type_ = ("number").toList then NumberEditSetting.extractValue cfg sec
  else if cfg.type_ = ("shortcut").toList then ShortcutSetting.extractValue cfg sec
  else if cfg.type_ = ("dropdown").toList then DropdownSetting.extractValue cfg sec
  else if cfg.type_ = ("color").toList then ColorSetting.extractValue cfg sec
  else if cfg.type_ = ("font_family").toList then FontFamilySetting.extractValue cfg sec
  else .error (.exception (("unkown NoteTypeSetting type: ").toList ++ cfg.type_))

/-- The codec dispatch on the side of value writing (`_set_setting_value`). -/
def setSettingValue (cfg : SettingConfig) (sec : PyStr) (v : SettingValue) : Except PyExc PyStr :=
  if cfg.type_ = ("checkbox").toList then CheckboxSetting.setValue cfg sec v
  else if cfg.type_ = ("re_checkbox").toList then ReCheckboxSetting.setValue cfg sec v
  else if cfg.type_ = ("text").toList then LineEditSetting.setValue cfg sec v
  else if cfg.type_ = ("number").toList then NumberEditSetting.setValue cfg sec v
  else if cfg.type_ = ("shortcut").toList then ShortcutSetting.setValue cfg sec v
  else if cfg.type_ = ("dropdown").toList then DropdownSetting.setValue cfg sec v
  else if cfg.type_ = ("color").toList then ColorSetting.setValue cfg sec v
  else if cfg.type_ = ("font_family").toList then FontFamilySetting.setValue cfg sec v
  else .error (.exception (("unkown NoteTypeSetting type: ").toList ++ cfg.type_))

/-- `NoteTypeSetting.from_config`: constructs the codec object for exactly
the eight known type tags and raises `Exception` for every other tag.  The
returned object is fully determined by its config; it is modelled by the
config itself (its behavior is the dispatch above). -/
def from_config (config : SettingConfig) : Except PyExc SettingConfig :=
  if config.type_ = ("checkbox").toList then .ok config
  else if config.type_ = ("re_checkbox").toList then .ok config
  else if config.type_ = ("text").toList then .ok config
  else if config.type_ = ("number").toList then .ok config
  else if config.type_ = ("shortcut").toList then .ok config
  else if config.type_ = ("dropdown").toList then .ok config
  else if config.type_ = ("color").toList then .ok config
  else if config.type_ = ("font_family").toList then .ok config
  else .error (.exception (("unkown NoteTypeSetting type: ").toList ++ config.type_))

end NoteTypeSetting

/-! ## Documents and the rewrite engine

A `NotetypeDict` is a top-level dict whose `tmpls` key holds a *shared* list
object; `model.copy()` copies the top-level dict only.  The list is therefore
modelled as a reference (`tmpls : Nat`) into a heap of template lists, and the
shallow copy as an ordinary value copy of `Model` that keeps the reference. -/

/-- One entry of a model's `tmpls` list (`qfmt` = front, `afmt` = back). -/
structure Template where
  qfmt : PyStr
  afmt : PyStr
deriving DecidableEq, Repr

/-- The store of `tmpls` list objects, indexed by reference. -/
abbrev Heap := List (List Template)

/-- A `NotetypeDict`: name, style blob, the `tmpls` reference, and the
envelope fields the engine never touches. -/
structure Model where
  name : PyStr
  css : PyStr
  tmpls : Nat
  extraFields : List (PyStr × PyStr) := []
deriving DecidableEq, Repr

/-- The `ConfigManager` contents relevant here: a string-keyed value dict. -/
abbrev Conf := List (PyStr × SettingValue)

/-- Python `conf[key]` (raises `KeyError` when absent). -/
def confGet (conf : Conf) (k : PyStr) : Except PyExc SettingValue :=
  match conf.find? (fun p => decide (p.1 = k)) with
  | some p => .ok p.2
  | none => .error .keyError

/-- Python `conf[key] = v`: overwrite in place, else append. -/
def confSet (conf : Conf) (k : PyStr) (v : SettingValue) : Conf :=
  if (conf.find? (fun p => decide (p.1 = k))).isSome then
    conf.map (fun p => if p.1 = k then (k, v) else p)
  else
    conf ++ [(k, v)]

namespace NoteTypeSetting

/-- `NoteTypeSetting.key`: `f"{notetype_name}.{setting_name}"`. -/
def key (cfg : SettingConfig) (notetypeName : PyStr) : PyStr :=
  notetypeName ++ '.' :: cfg.setting_name

/-- `NoteTypeSetting._relevant_template_text`: picks the blob named by the
config's `file` key (anything other than `front`/`back` reads the style
blob); `assert len(templates) == 1`. -/
def relevantTemplateText (cfg : SettingConfig) (model : Model) (heap : Heap) :
    Except PyExc PyStr :=
  match heap.getD model.tmpls [] with
  | [t] =>
      if cfg.file = ("front").toList then .ok t.qfmt
      else if cfg.file = ("back").toList then .ok t.afmt
      else .ok model.css
  | _ => .error .assertionError

/-- `NoteTypeSetting._relevant_template_section`: the full text of the first
`re.search` match; `NotetypeParseException` when the pattern does not match. -/
def relevantTemplateSection (cfg : SettingConfig) (model : Model) (heap : Heap) :
    Except PyExc PyStr := do
  let text ← relevantTemplateText cfg model heap
  match reSearch cfg.regex text with
  | none => .error (.notetypeParseException cfg.name)
  | some m => .ok (m.matchedStr text)

/-- `NoteTypeSetting.setting_value`: decode of one descriptor on one model. -/
def settingValue (cfg : SettingConfig) (model : Model) (heap : Heap) :
    Except PyExc SettingValue := do
  let sec ← relevantTemplateSection cfg model heap
  extractSettingValue cfg sec

/-- `NoteTypeSetting.updated_model`: `result = model.copy()` (top-level dict
only — the `tmpls` reference is shared), locate the section, write the new
value into it, and substitute the first occurrence of the old section text in
the blob.  A `front`/`back` write mutates the shared template list on the
heap; a style write only sets `css` on the copy. -/
def updatedModel (cfg : SettingConfig) (model : Model) (notetypeName : PyStr)
    (conf : Conf) (heap : Heap) : Except PyExc (Model × Heap) := do
  let text ← relevantTemplateText cfg model heap
  let m ← match reSearch cfg.regex text with
    | none => Except.error (PyExc.notetypeParseException cfg.name)
    | some m => Except.ok m
  let sec := m.matchedStr text
  let v ← confGet conf (key cfg notetypeName)
  let processed ← setSettingValue cfg sec v
  let updatedText := pyReplace1 text sec processed
  match heap.getD model.tmpls [] with
  | [t] =>
      if cfg.file = ("front").toList then
        .ok (model, heap.set model.tmpls [{ t with qfmt := updatedText }])
      else if cfg.file = ("back").toList then
        .ok (model, heap.set model.tmpls [{ t with afmt := updatedText }])
      else
        .ok ({ model with css := updatedText }, heap)
  | _ => .error .assertionError

end NoteTypeSetting

/-- Loop of `safe_update_model`: apply each setting to the running result,
catching (only) `NotetypeParseException` and remembering the last one. -/
def safeUpdateModelGo (conf : Conf) :
    List SettingConfig → Model → Heap → Option PyExc →
    Except PyExc (Model × Heap × Option PyExc)
  | [], m, h, pe => .ok (m, h, pe)
  | nts :: rest, m, h, pe =>
      match NoteTypeSetting.updatedModel nts m m.name conf h with
      | .ok (m2, h2) => safeUpdateModelGo conf rest m2 h2 pe
      | .error (.notetypeParseException msg) =>
          safeUpdateModelGo conf rest m h (some (.notetypeParseException msg))
      | .error e => .error e

/-- `safe_update_model(ntss, model, conf)`: returns the updated model (the
working copy starts as `model.copy()`) together with the one reported parse
failure, if any (the source shows it in a single tooltip).  Any exception
other than `NotetypeParseException` propagates. -/
def safe_update_model (ntss : List SettingConfig) (model : Model) (heap : Heap)
    (conf : Conf) : Except PyExc (Model × Heap × Option PyExc) :=
  safeUpdateModelGo conf ntss model heap none

/-- Inner loop of `read_in_settings_from_notetypes` over one notetype's
descriptors: record each decoded value, accumulate a report entry per
`NotetypeParseException`, propagate anything else. -/
def readInGoNtss (model : Model) (heap : Heap) (notetypeName : PyStr) :
    List SettingConfig → Conf → PyStr → Except PyExc (Conf × PyStr)
  | [], conf, msg => .ok (conf, msg)
  | nts :: rest, conf, msg =>
      match NoteTypeSetting.settingValue nts model heap with
      | .ok v =>
          readInGoNtss model heap notetypeName rest
            (confSet conf (NoteTypeSetting.key nts notetypeName) v) msg
      | .error (.notetypeParseException m) =>
          readInGoNtss model heap notetypeName rest conf
            (msg ++ ("failed parsing notetype:\n").toList ++ m ++ ("\n\n").toList)
      | .error e => .error e

/-- Outer loop of `read_in_settings_from_notetypes` over the notetypes
(a notetype absent from the collection is skipped). -/
def readInGoItems :
    List (PyStr × Option Model × List SettingConfig) → Heap → Conf → PyStr →
    Except PyExc (Conf × PyStr)
  | [], _, conf, msg => .ok (conf, msg)
  | (_, none, _) :: rest, heap, conf, msg => readInGoItems rest heap conf msg
  | (name, some model, ntss) :: rest, heap, conf, msg =>
      match readInGoNtss model heap name ntss conf msg with
      | .ok (conf2, msg2) => readInGoItems rest heap conf2 msg2
      | .error e => .error e

/-- `read_in_settings_from_notetypes(conf)`.  The per-notetype inputs
(`settings_by_notetype`, `mw.col.models.by_name`, `ntss_for_notetype`) are
external to the engine and passed as data: one (name, model-or-absent,
descriptor list) triple per notetype.  Returns the populated config and the
accumulated combined error report (shown once via `showInfo` when nonempty). -/
def read_in_settings_from_notetypes
    (items : List (PyStr × Option Model × List SettingConfig)) (heap : Heap)
    (conf0 : Conf) : Except PyExc (Conf × PyStr) :=
  readInGoItems items heap conf0 []

/-! ## The two special orderings (config.py / gui/config_window.py)

Python's `sorted` is a stable sort after evaluating the key on every element
(a raising key aborts the whole sort).  It is modelled as a stable insertion
sort on (key, element) pairs. -/

/-- Insert into a sorted list of keyed pairs, before any pair of equal key
(the inserted element is always the earlier one in the original order). -/
def insertByKey {α : Type} (p : Int × α) : List (Int × α) → List (Int × α)
  | [] => [p]
  | q :: t => if q.1 < p.1 then q :: insertByKey p t else p :: q :: t

/-- Stable insertion sort of keyed pairs. -/
def sortPairs {α : Type} (l : List (Int × α)) : List (Int × α) :=
  List.foldr insertByKey [] l

/-- Python `sorted(l, key=keyF)` for a total key. -/
def sortedByKey {α : Type} (keyF : α → Int) (l : List α) : List α :=
  (sortPairs (l.map (fun a => (keyF a, a)))).map (fun p => p.2)

/-- Python `sorted(l, key=keyF)` for a key that may raise: all keys are
evaluated first; a raise propagates and nothing is returned. -/
def sortedByKeyE {α : Type} (keyF : α → Except PyExc Int) (l : List α) :
    Except PyExc (List α) := do
  let pairs ← l.mapM (fun a => (keyF a).map (fun k => (k, a)))
  .ok ((sortPairs pairs).map (fun p => p.2))

/-- Python `xs.index(x)`: first index, `ValueError` when absent. -/
def listIndex (xs : List PyStr) (x : PyStr) : Except PyExc Nat :=
  match xs with
  | [] => .error .valueError
  | y :: t => if y = x then .ok 0 else (listIndex t x).map (· + 1)

/-- First index of `x` in `xs` (total; callers guard membership). -/
def listIndexD (xs : List PyStr) (x : PyStr) : Nat :=
  match xs with
  | [] => 0
  | y :: t => if y = x then 0 else listIndexD t x + 1

/-- The sort key of `adjust_hint_button_nts_order`:
`ordered_btn_names.index(nts.config["hint_button_setting"])` — `ValueError`
when the button name is not in the mapping (and `KeyError` on the untagged,
which the caller filters out). -/
def hintBtnKey (orderedBtnNames : List PyStr) (nts : SettingConfig) : Except PyExc Int :=
  match nts.hint_button_setting with
  | some s => (listIndex orderedBtnNames s).map (fun n => Int.ofNat n)
  | none => .error .keyError

/-- `adjust_hint_button_nts_order(ntss, notetype_name)` (config.py).  The
button-name order — `list(btn_name_to_shortcut_odict(notetype_name).keys())`,
parsed from the notetype's back template file, which is data external to the
repository snapshot — is passed in as `orderedBtnNames`. -/
def adjust_hint_button_nts_order (ntss : List SettingConfig)
    (orderedBtnNames : List PyStr) : Except PyExc (List SettingConfig) := do
  let hintButtonNtss := ntss.filter (fun nts => truthyOptStr nts.hint_button_setting)
  let orderedHintButtonNtss ← sortedByKeyE (hintBtnKey orderedBtnNames) hintButtonNtss
  let otherNtss := ntss.filter (fun nts => !decide (nts ∈ hintButtonNtss))
  .ok (orderedHintButtonNtss ++ otherNtss)

/-- The sort key of `_adjust_configurable_field_nts_order`:
first index in the configurable-field order, `-1` when absent. -/
def configurableFieldKey (orderedFieldNames : List PyStr) (nts : SettingConfig) : Int :=
  match nts.configurable_field_name with
  | some nm =>
      if nm ∈ orderedFieldNames then (listIndexD orderedFieldNames nm : Int) else -1
  | none => -1

/-- `NotetypesConfigWindow._adjust_configurable_field_nts_order` (gui/
config_window.py).  The field-name order — `configurable_fields_for_notetype`,
parsed from the notetype's back template file, external data — is passed in
as `orderedFieldNames`.  Untagged settings come first, then the tagged ones
sorted by first-appearance index with the `-1` sentinel for absent names. -/
def adjust_configurable_field_nts_order (ntss : List SettingConfig)
    (orderedFieldNames : List PyStr) : List SettingConfig :=
  let fieldNtss := ntss.filter (fun nts => truthyOptStr nts.configurable_field_name)
  let orderedFieldNtss := sortedByKey (configurableFieldKey orderedFieldNames) fieldNtss
  let otherNtss := ntss.filter (fun nts => !decide (nts ∈ fieldNtss))
  otherNtss ++ orderedFieldNtss

/-! ## Properties of the string primitives -/

namespace PyString

theorem occursAt_zero_iff (n h : PyStr) : OccursAt n h 0 ↔ n <+: h := by
  constructor
  · rintro ⟨pre, post, heq, hlen⟩
    have : pre = [] := List.length_eq_zero.mp hlen
    subst this
    exact ⟨post, heq.symm⟩
  · rintro ⟨t, ht⟩
    exact ⟨[], t, by simpa using ht.symm, rfl⟩

theorem occursAt_cons_succ (n h : PyStr) (c : Char) (i : Nat) :
    OccursAt n (c :: h) (i + 1) ↔ OccursAt n h i := by
  constructor
  · rintro ⟨pre, post, heq, hlen⟩
    match pre, hlen with
    | p0 :: pre2, hlen =>
      simp only [List.cons_append] at heq
      obtain ⟨-, heq2⟩ := List.cons_eq_cons.mp heq.symm
      exact ⟨pre2, post, heq2.symm, by simpa using hlen⟩
  · rintro ⟨pre, post, heq, hlen⟩
    exact ⟨c :: pre, post, by simp [heq], by simpa using hlen⟩

theorem prefix_append_drop {l s : PyStr} (hp : l <+: s) : l ++ s.drop l.length = s := by
  obtain ⟨t, ht⟩ := hp
  subst ht
  simp

theorem pyReplaceFuel_self (old : PyStr) :
    ∀ fuel s cnt, pyReplaceFuel old old fuel s cnt = s := by
  intro fuel
  induction fuel with
  | zero =>
      intro s cnt
      match s, cnt with
      | [], some 0 => rfl
      | c :: t, some 0 => rfl
      | [], some (k + 1) => rfl
      | c :: t, some (k + 1) => rfl
      | [], none => rfl
      | c :: t, none => rfl
  | succ f ih =>
      intro s cnt
      have hmain : ∀ c (rest : PyStr) (cnt2 : Option Nat),
          (if old.isEmpty then old ++ c :: pyReplaceFuel old old f rest (cnt2.map (· - 1))
            else if old.isPrefixOf (c :: rest) then
              old ++ pyReplaceFuel old old f ((c :: rest).drop old.length) (cnt2.map (· - 1))
            else c :: pyReplaceFuel old old f rest cnt2) = c :: rest := by
        intro c rest cnt2
        by_cases hE : old.isEmpty
        · have hnil : old = [] := List.isEmpty_iff.mp hE
          simp only [hE, if_true, ih]
          simp [hnil]
        · by_cases hP : old.isPrefixOf (c :: rest)
          · have hpre : old <+: (c :: rest) := List.isPrefixOf_iff_prefix.mp hP
            simp only [hE, if_false, hP, if_true, ih]
            exact prefix_append_drop hpre
          · simp [hE, hP, ih]
      match s, cnt with
      | [], some 0 => rfl
      | c :: t, some 0 => rfl
      | [], some (k + 1) =>
          show (if old.isEmpty then old else []) = []
          by_cases hE : old.isEmpty <;> simp_all [List.isEmpty_iff]
      | [], none =>
          show (if old.isEmpty then old else []) = []
          by_cases hE : old.isEmpty <;> simp_all [List.isEmpty_iff]
      | c :: rest, some (k + 1) => exact hmain c rest (some (k + 1))
      | c :: rest, none => exact hmain c rest none

/-- `s.replace(t, t, ...)` is the identity. -/
theorem pyReplace1_self (s old : PyStr) : pyReplace1 s old old = s :=
  pyReplaceFuel_self old (s.length + 1) s (some 1)

theorem pyReplaceFuel_cnt_zero (old new : PyStr) :
    ∀ fuel s, pyReplaceFuel old new fuel s (some 0) = s := by
  intro fuel s
  cases fuel <;> cases s <;> rfl

theorem pyReplaceFuel_cons_eq (old new : PyStr) (f : Nat) (c : Char) (rest : PyStr)
    (cnt : Option Nat) (h0 : cnt ≠ some 0) :
    pyReplaceFuel old new (f + 1) (c :: rest) cnt =
      if old.isEmpty then new ++ c :: pyReplaceFuel old new f rest (cnt.map (· - 1))
      else if old.isPrefixOf (c :: rest) then
        new ++ pyReplaceFuel old new f ((c :: rest).drop old.length) (cnt.map (· - 1))
      else c :: pyReplaceFuel old new f rest cnt := by
  match cnt with
  | none => rfl
  | some 0 => exact absurd rfl h0
  | some (k + 1) => rfl

theorem pyReplaceFuel_nil_eq (old new : PyStr) (f : Nat) (cnt : Option Nat)
    (h0 : cnt ≠ some 0) :
    pyReplaceFuel old new (f + 1) [] cnt = if old.isEmpty then new else [] := by
  match cnt with
  | none => rfl
  | some 0 => exact absurd rfl h0
  | some (k + 1) => rfl

/-- `str.replace(old, new, 1)` on a string whose *first* occurrence of `old`
is the exhibited one rewrites exactly that occurrence. -/
theorem pyReplaceFuel_first_occurrence (old new : PyStr) :
    ∀ pre fuel (post : PyStr), (pre ++ old ++ post).length < fuel →
    (∀ i, OccursAt old (pre ++ old ++ post) i → pre.length ≤ i) →
    pyReplaceFuel old new fuel (pre ++ old ++ post) (some 1) = pre ++ new ++ post := by
  intro pre
  induction pre with
  | nil =>
      intro fuel post hfuel _
      match fuel with
      | 0 => simp at hfuel
      | f + 1 =>
          match old with
          | [] =>
              match post with
              | [] =>
                  rw [show (([] : PyStr) ++ [] ++ []) = ([] : PyStr) from rfl,
                    pyReplaceFuel_nil_eq _ _ _ _ (by simp)]
                  simp
              | c :: t =>
                  rw [show (([] : PyStr) ++ [] ++ (c :: t)) = c :: t from rfl,
                    pyReplaceFuel_cons_eq _ _ _ _ _ _ (by simp)]
                  simp [pyReplaceFuel_cnt_zero]
          | o :: ot =>
              have hP : List.isPrefixOf (o :: ot) ((o :: ot) ++ post) = true :=
                List.isPrefixOf_iff_prefix.mpr ⟨post, rfl⟩
              rw [show (([] : PyStr) ++ (o :: ot) ++ post) = o :: (ot ++ post) from rfl,
                pyReplaceFuel_cons_eq _ _ _ _ _ _ (by simp)]
              rw [if_neg (by simp), if_pos (show List.isPrefixOf (o :: ot) (o :: (ot ++ post)) = true from hP)]
              have hdrop : (o :: (ot ++ post)).drop (o :: ot).length = post := by
                have h1 : (o :: ot) ++ post = o :: (ot ++ post) := rfl
                rw [← h1, List.drop_left]
              rw [hdrop]
              simp [Option.map, pyReplaceFuel_cnt_zero]
  | cons c pre2 ih =>
      intro fuel post hfuel hfirst
      have hne : ¬ (old.isEmpty = true) := by
        intro hE
        have hnil : old = [] := List.isEmpty_iff.mp hE
        have h0 : OccursAt old ((c :: pre2) ++ old ++ post) 0 :=
          ⟨[], (c :: pre2) ++ old ++ post, by simp [hnil], rfl⟩
        have := hfirst 0 h0
        simp at this
      have hnp : ¬ (old.isPrefixOf (c :: (pre2 ++ old ++ post)) = true) := by
        intro hP
        have h0 : OccursAt old ((c :: pre2) ++ old ++ post) 0 := by
          have := (occursAt_zero_iff old (c :: (pre2 ++ old ++ post))).mpr
            (List.isPrefixOf_iff_prefix.mp hP)
          simpa using this
        have := hfirst 0 h0
        simp at this
      match fuel with
      | 0 => simp at hfuel
      | f + 1 =>
          rw [show ((c :: pre2) ++ old ++ post) = c :: (pre2 ++ old ++ post) from rfl,
            pyReplaceFuel_cons_eq _ _ _ _ _ _ (by simp)]
          rw [if_neg hne, if_neg hnp]
          have hrec := ih f post
            (by
              have : (c :: (pre2 ++ old ++ post)).length < f + 1 := by
                simpa using hfuel
              simpa using Nat.lt_of_succ_lt_succ (by simpa using this))
            (fun i hocc => by
              have hs := hfirst (i + 1) (by
                have := (occursAt_cons_succ old (pre2 ++ old ++ post) c i).mpr hocc
                simpa using this)
              simpa using Nat.le_of_succ_le_succ (by simpa using hs))
          rw [hrec]
          simp

/-- `s.replace(old, new, 1)` rewrites the exhibited first occurrence. -/
theorem pyReplace1_first_occurrence (old new pre post : PyStr)
    (hfirst : ∀ i, OccursAt old (pre ++ old ++ post) i → pre.length ≤ i) :
    pyReplace1 (pre ++ old ++ post) old new = pre ++ new ++ post :=
  pyReplaceFuel_first_occurrence old new pre ((pre ++ old ++ post).length + 1) post
    (Nat.lt_succ_self _) hfirst

theorem digitChar_facts (d : Nat) (h : d < 10) :
    ('0' ≤ digitChar d ∧ digitChar d ≤ '9') ∧ (digitChar d).toNat - 48 = d ∧
    isPySpace (digitChar d) = false ∧ digitChar d ≠ '-' ∧ digitChar d ≠ '+' := by
  interval_cases d <;> exact (by decide)

theorem natDigitsGo_facts :
    ∀ fuel n, n < fuel →
      natDigitsGo fuel n ≠ [] ∧ ∀ c ∈ natDigitsGo fuel n, ∃ d, d < 10 ∧ c = digitChar d := by
  intro fuel
  induction fuel with
  | zero => intro n h; omega
  | succ f ih =>
      intro n h
      by_cases h10 : n < 10
      · constructor
        · simp [natDigitsGo, h10]
        · intro c hc
          simp [natDigitsGo, h10] at hc
          exact ⟨n, h10, hc⟩
      · have hdiv : n / 10 < f := by
          have h1 : n / 10 < n := Nat.div_lt_self (by omega) (by omega)
          omega
        obtain ⟨hne, hmem⟩ := ih (n / 10) hdiv
        constructor
        · simp [natDigitsGo, h10]
        · intro c hc
          simp only [natDigitsGo, h10, if_false, List.mem_append, List.mem_singleton] at hc
          rcases hc with hc | hc
          · exact hmem c hc
          · exact ⟨n % 10, Nat.mod_lt _ (by omega), hc⟩

theorem parseDigitsAcc_natDigitsGo :
    ∀ fuel n, n < fuel → ∀ acc rest,
      parseDigitsAcc acc (natDigitsGo fuel n ++ rest) =
        parseDigitsAcc (acc * 10 ^ (natDigitsGo fuel n).length + n) rest := by
  intro fuel
  induction fuel with
  | zero => intro n h; omega
  | succ f ih =>
      intro n h acc rest
      by_cases h10 : n < 10
      · obtain ⟨⟨hd0, hd9⟩, hdval, -, -, -⟩ := digitChar_facts n h10
        simp only [natDigitsGo, h10, if_true, List.singleton_append, List.length_singleton]
        rw [show parseDigitsAcc acc (digitChar n :: rest) =
            parseDigitsAcc (acc * 10 + ((digitChar n).toNat - 48)) rest from by
          simp [parseDigitsAcc, hd0, hd9]]
        rw [hdval, pow_one]
      · have hdiv : n / 10 < f := by
          have h1 : n / 10 < n := Nat.div_lt_self (by omega) (by omega)
          omega
        obtain ⟨⟨hd0, hd9⟩, hdval, -, -, -⟩ := digitChar_facts (n % 10) (Nat.mod_lt _ (by omega))
        simp only [natDigitsGo, h10, if_false, List.append_assoc, List.singleton_append,
          List.length_append, List.length_singleton]
        rw [ih (n / 10) hdiv acc (digitChar (n % 10) :: rest)]
        rw [show ∀ a, parseDigitsAcc a (digitChar (n % 10) :: rest) =
            parseDigitsAcc (a * 10 + ((digitChar (n % 10)).toNat - 48)) rest from fun a => by
          simp [parseDigitsAcc, hd0, hd9]]
        rw [hdval]
        congr 1
        have hmod : 10 * (n / 10) + n % 10 = n := Nat.div_add_mod n 10
        have hpow : 10 ^ ((natDigitsGo f (n / 10)).length + 1) =
            10 ^ (natDigitsGo f (n / 10)).length * 10 := pow_succ 10 _
        rw [hpow]
        ring_nf
        omega

theorem parseNatDigits_natDigits (n : Nat) : parseNatDigits (natDigits n) = some n := by
  obtain ⟨hne, -⟩ := natDigitsGo_facts (n + 1) n (Nat.lt_succ_self n)
  have hroundtrip := parseDigitsAcc_natDigitsGo (n + 1) n (Nat.lt_succ_self n) 0 []
  rw [List.append_nil] at hroundtrip
  show parseNatDigits (natDigitsGo (n + 1) n) = some n
  cases hd : natDigitsGo (n + 1) n with
  | nil => exact absurd hd hne
  | cons c t =>
      have h1 : parseNatDigits (c :: t) = parseDigitsAcc 0 (c :: t) := rfl
      rw [h1, ← hd, hroundtrip]
      simp [parseDigitsAcc]

theorem dropWhile_nospace (l : PyStr) (h : ∀ c ∈ l, isPySpace c = false) :
    l.dropWhile isPySpace = l := by
  cases l with
  | nil => rfl
  | cons c t =>
      have hc := h c (by simp)
      simp [List.dropWhile_cons, hc]

theorem strip_nospace (l : PyStr) (h : ∀ c ∈ l, isPySpace c = false) :
    ((l.dropWhile isPySpace).reverse.dropWhile isPySpace).reverse = l := by
  rw [dropWhile_nospace l h]
  rw [dropWhile_nospace l.reverse (by intro c hc; exact h c (List.mem_reverse.mp hc))]
  exact List.reverse_reverse l

theorem pyInt_natDigits (m : Nat) : pyInt (natDigits m) = some (m : Int) := by
  have hfacts := natDigitsGo_facts (m + 1) m (Nat.lt_succ_self m)
  have hnospace : ∀ c ∈ natDigits m, isPySpace c = false := by
    intro c hc
    obtain ⟨d, hd, rfl⟩ := hfacts.2 c hc
    exact (digitChar_facts d hd).2.2.1
  simp only [pyInt]
  rw [strip_nospace _ hnospace]
  split
  · rename_i rest heq
    have hmem : '-' ∈ natDigits m := by rw [heq]; simp
    obtain ⟨d, hd, hcontra⟩ := hfacts.2 _ hmem
    exact absurd hcontra.symm (digitChar_facts d hd).2.2.2.1
  · rename_i rest heq
    have hmem : '+' ∈ natDigits m := by rw [heq]; simp
    obtain ⟨d, hd, hcontra⟩ := hfacts.2 _ hmem
    exact absurd hcontra.symm (digitChar_facts d hd).2.2.2.2
  · rw [parseNatDigits_natDigits]
    rfl

/-- Python `int(str(i)) == i`: printing then parsing an `int` round-trips. -/
theorem pyInt_intToPyStr (i : Int) : pyInt (intToPyStr i) = some i := by
  by_cases hneg : i < 0
  · have hfacts := natDigitsGo_facts (i.natAbs + 1) i.natAbs (Nat.lt_succ_self _)
    have hrepr : intToPyStr i = '-' :: natDigits i.natAbs := by simp [intToPyStr, hneg]
    have hnospace : ∀ c ∈ ('-' :: natDigits i.natAbs), isPySpace c = false := by
      intro c hc
      rcases List.mem_cons.mp hc with rfl | hc2
      · decide
      · obtain ⟨d, hd, rfl⟩ := hfacts.2 c hc2
        exact (digitChar_facts d hd).2.2.1
    simp only [pyInt, hrepr]
    rw [strip_nospace _ hnospace]
    show (parseNatDigits (natDigits i.natAbs)).map (fun n => -(Int.ofNat n)) = some i
    rw [parseNatDigits_natDigits]
    show some (-(i.natAbs : Int)) = some i
    have habs : -(i.natAbs : Int) = i := by omega
    rw [habs]
  · rw [show intToPyStr i = natDigits i.natAbs from by simp [intToPyStr, hneg]]
    rw [pyInt_natDigits]
    have habs : (i.natAbs : Int) = i := by omega
    rw [habs]

end PyString

/-! ## Properties of the stable keyed sort and of Python `list.index` -/

theorem mem_insertByKey {α : Type} (p q : Int × α) (l : List (Int × α)) :
    q ∈ insertByKey p l ↔ q = p ∨ q ∈ l := by
  induction l with
  | nil => simp [insertByKey]
  | cons r t ih =>
      by_cases h : r.1 < p.1
      · simp only [insertByKey, h, if_true, List.mem_cons, ih]
        tauto
      · simp only [insertByKey, h, if_false, List.mem_cons]

theorem mem_sortPairs {α : Type} (q : Int × α) (l : List (Int × α)) :
    q ∈ sortPairs l ↔ q ∈ l := by
  induction l with
  | nil => simp [sortPairs]
  | cons p t ih =>
      show q ∈ insertByKey p (sortPairs t) ↔ _
      rw [mem_insertByKey]
      simp only [List.mem_cons, ih]

theorem pairwise_insertByKey {α : Type} (p : Int × α) (l : List (Int × α))
    (hl : List.Pairwise (fun a b => a.1 ≤ b.1) l) :
    List.Pairwise (fun a b => a.1 ≤ b.1) (insertByKey p l) := by
  induction l with
  | nil => simp [insertByKey]
  | cons r t ih =>
      rcases List.pairwise_cons.mp hl with ⟨hr, ht⟩
      by_cases h : r.1 < p.1
      · simp only [insertByKey, h, if_true]
        refine List.pairwise_cons.mpr ⟨?_, ih ht⟩
        intro q hq
        rcases (mem_insertByKey p q t).mp hq with rfl | hq2
        · exact le_of_lt h
        · exact hr q hq2
      · simp only [insertByKey, h, if_false]
        refine List.pairwise_cons.mpr ⟨?_, hl⟩
        intro q hq
        rcases List.mem_cons.mp hq with rfl | hq2
        · exact not_lt.mp h
        · exact le_trans (not_lt.mp h) (hr q hq2)

theorem pairwise_sortPairs {α : Type} (l : List (Int × α)) :
    List.Pairwise (fun a b => a.1 ≤ b.1) (sortPairs l) := by
  induction l with
  | nil => simp [sortPairs]
  | cons p t ih => exact pairwise_insertByKey p (sortPairs t) ih

theorem filter_insertByKey {α : Type} (p : Int × α) (l : List (Int × α)) (k : Int) :
    (insertByKey p l).filter (fun q => decide (q.1 = k)) =
      if p.1 = k then p :: l.filter (fun q => decide (q.1 = k))
      else l.filter (fun q => decide (q.1 = k)) := by
  induction l with
  | nil => by_cases h : p.1 = k <;> simp [insertByKey, List.filter, h]
  | cons r t ih =>
      by_cases h : r.1 < p.1
      · simp only [insertByKey, h, if_true]
        by_cases hpk : p.1 = k
        · have hrk : ¬ (r.1 = k) := by omega
          rw [List.filter_cons, if_neg (by simpa using hrk), ih, if_pos hpk, if_pos hpk,
            List.filter_cons, if_neg (by simpa using hrk)]
        · rw [if_neg hpk, List.filter_cons, ih, if_neg hpk, List.filter_cons]
      · simp only [insertByKey, h, if_false]
        by_cases hpk : p.1 = k
        · rw [List.filter_cons, if_pos (by simpa using hpk), if_pos hpk]
        · rw [List.filter_cons, if_neg (by simpa using hpk), if_neg hpk]

theorem filter_sortPairs {α : Type} (l : List (Int × α)) (k : Int) :
    (sortPairs l).filter (fun q => decide (q.1 = k)) =
      l.filter (fun q => decide (q.1 = k)) := by
  induction l with
  | nil => rfl
  | cons p t ih =>
      show (insertByKey p (sortPairs t)).filter _ = _
      rw [filter_insertByKey]
      by_cases hpk : p.1 = k
      · rw [if_pos hpk, ih, List.filter_cons, if_pos (by simpa using hpk)]
      · rw [if_neg hpk, ih, List.filter_cons, if_neg (by simpa using hpk)]

theorem sortedByKey_pairwise {α : Type} (keyF : α → Int) (l : List α) :
    List.Pairwise (fun a b => keyF a ≤ keyF b) (sortedByKey keyF l) := by
  have hinv : ∀ q ∈ sortPairs (l.map (fun a => (keyF a, a))), q.1 = keyF q.2 := by
    intro q hq
    have hq2 := (mem_sortPairs q _).mp hq
    obtain ⟨a, -, rfl⟩ := List.mem_map.mp hq2
    rfl
  have hsorted := pairwise_sortPairs (l.map (fun a => (keyF a, a)))
  refine List.pairwise_map.mpr ?_
  exact hsorted.imp_of_mem (fun ha hb hab => by
    rename_i a b
    rw [← hinv a ha, ← hinv b hb]
    exact hab)

theorem sortedByKey_stable {α : Type} (keyF : α → Int) (l : List α) (k : Int) :
    (sortedByKey keyF l).filter (fun a => decide (keyF a = k)) =
      l.filter (fun a => decide (keyF a = k)) := by
  have hinv : ∀ q ∈ sortPairs (l.map (fun a => (keyF a, a))), q.1 = keyF q.2 := by
    intro q hq
    have hq2 := (mem_sortPairs q _).mp hq
    obtain ⟨a, -, rfl⟩ := List.mem_map.mp hq2
    rfl
  show ((sortPairs (l.map (fun a => (keyF a, a)))).map (fun p => p.2)).filter _ = _
  rw [List.filter_map]
  have hcongr : (sortPairs (l.map (fun a => (keyF a, a)))).filter
      ((fun a => decide (keyF a = k)) ∘ (fun p => p.2)) =
      (sortPairs (l.map (fun a => (keyF a, a)))).filter (fun q => decide (q.1 = k)) := by
    apply List.filter_congr
    intro q hq
    simp [Function.comp, hinv q hq]
  rw [hcongr, filter_sortPairs, List.filter_map, List.map_map]
  have hpred : ((fun q => decide (q.1 = k)) ∘ (fun a => ((keyF a, a) : Int × α))) =
      (fun a => decide (keyF a = k)) := rfl
  rw [hpred]
  exact List.map_id' _

theorem listIndex_of_mem (xs : List PyStr) (x : PyStr) (h : x ∈ xs) :
    listIndex xs x = .ok (listIndexD xs x) := by
  induction xs with
  | nil => simp at h
  | cons y t ih =>
      by_cases hy : y = x
      · simp [listIndex, listIndexD, hy]
      · have hx : x ∈ t := by
          rcases List.mem_cons.mp h with rfl | ht
          · exact absurd rfl hy
          · exact ht
        simp [listIndex, listIndexD, hy, ih hx, Except.map]

theorem listIndex_of_not_mem (xs : List PyStr) (x : PyStr) (h : x ∉ xs) :
    listIndex xs x = .error .valueError := by
  induction xs with
  | nil => rfl
  | cons y t ih =>
      have hy : ¬ (y = x) := fun hc => h (hc ▸ List.mem_cons_self y t)
      have ht : x ∉ t := fun hc => h (List.mem_cons_of_mem y hc)
      simp [listIndex, hy, ih ht, Except.map]

theorem getD_set_self {α : Type} (l : List α) (n : Nat) (a d : α) (h : n < l.length) :
    (l.set n a).getD n d = a := by
  induction l generalizing n with
  | nil => simp at h
  | cons x t ih =>
      cases n with
      | zero => rfl
      | succ m =>
          have : m < t.length := by simpa using h
          simpa [List.set, List.getD] using ih m this

/-- Decidable equality for `Except` results (used only to settle concrete
runs by `decide`). -/
instance {e a : Type} [DecidableEq e] [DecidableEq a] : DecidableEq (Except e a) := fun x y =>
  match x, y with
  | .ok v, .ok w =>
      if h : v = w then .isTrue (by rw [h]) else .isFalse (fun hc => h (Except.ok.inj hc))
  | .error v, .error w =>
      if h : v = w then .isTrue (by rw [h]) else .isFalse (fun hc => h (Except.error.inj hc))
  | .ok _, .error _ => .isFalse (fun hc => Except.noConfusion hc)
  | .error _, .ok _ => .isFalse (fun hc => Except.noConfusion hc)

/-! ## Dispatch equations and round-trip apparatus -/

/-- The eight type tags `NoteTypeSetting.from_config` knows. -/
def eightKindTags : List PyStr :=
  [("checkbox").toList, ("re_checkbox").toList, ("text").toList, ("number").toList,
    ("shortcut").toList, ("dropdown").toList, ("color").toList, ("font_family").toList]

/-- `re.search(cfg.regex, s).group(1)` as one step. -/
def groupOf (cfg : SettingConfig) (s2 : PyStr) : Option PyStr :=
  (reSearch cfg.regex s2).bind (fun m => m.groupStr 1 s2)

theorem extract_dispatch_checkbox (cfg : SettingConfig) (sec : PyStr)
    (h : cfg.type_ = ("checkbox").toList) :
    NoteTypeSetting.extractSettingValue cfg sec = CheckboxSetting.extractValue cfg sec := by
  unfold NoteTypeSetting.extractSettingValue
  rw [h, if_pos rfl]

theorem extract_dispatch_re_checkbox (cfg : SettingConfig) (sec : PyStr)
    (h : cfg.type_ = ("re_checkbox").toList) :
    NoteTypeSetting.extractSettingValue cfg sec = ReCheckboxSetting.extractValue cfg sec := by
  unfold NoteTypeSetting.extractSettingValue
  rw [h, if_neg (by decide), if_pos rfl]

theorem extract_dispatch_text (cfg : SettingConfig) (sec : PyStr)
    (h : cfg.type_ = ("text").toList) :
    NoteTypeSetting.extractSettingValue cfg sec = LineEditSetting.extractValue cfg sec := by
  unfold NoteTypeSetting.extractSettingValue
  rw [h, if_neg (by decide), if_neg (by decide), if_pos rfl]

theorem extract_dispatch_number (cfg : SettingConfig) (sec : PyStr)
    (h : cfg.type_ = ("number").toList) :
    NoteTypeSetting.extractSettingValue cfg sec = NumberEditSetting.extractValue cfg sec := by
  unfold NoteTypeSetting.extractSettingValue
  rw [h, if_neg (by decide), if_neg (by decide), if_neg (by decide), if_pos rfl]

theorem extract_dispatch_shortcut (cfg : SettingConfig) (sec : PyStr)
    (h : cfg.type_ = ("shortcut").toList) :
    NoteTypeSetting.extractSettingValue cfg sec = ShortcutSetting.extractValue cfg sec := by
  unfold NoteTypeSetting.extractSettingValue
  rw [h, if_neg (by decide), if_neg (by decide), if_neg (by decide), if_neg (by decide),
    if_pos rfl]

theorem extract_dispatch_dropdown (cfg : SettingConfig) (sec : PyStr)
    (h : cfg.type_ = ("dropdown").toList) :
    NoteTypeSetting.extractSettingValue cfg sec = DropdownSetting.extractValue cfg sec := by
  unfold NoteTypeSetting.extractSettingValue
  rw [h, if_neg (by decide), if_neg (by decide), if_neg (by decide), if_neg (by decide),
    if_neg (by decide), if_pos rfl]

theorem extract_dispatch_color (cfg : SettingConfig) (sec : PyStr)
    (h : cfg.type_ = ("color").toList) :
    NoteTypeSetting.extractSettingValue cfg sec = ColorSetting.extractValue cfg sec := by
  unfold NoteTypeSetting.extractSettingValue
  rw [h, if_neg (by decide), if_neg (by decide), if_neg (by decide), if_neg (by decide),
    if_neg (by decide), if_neg (by decide), if_pos rfl]

theorem extract_dispatch_font_family (cfg : SettingConfig) (sec : PyStr)
    (h : cfg.type_ = ("font_family").toList) :
    NoteTypeSetting.extractSettingValue cfg sec = FontFamilySetting.extractValue cfg sec := by
  unfold NoteTypeSetting.extractSettingValue
  rw [h, if_neg (by decide), if_neg (by decide), if_neg (by decide), if_neg (by decide),
    if_neg (by decide), if_neg (by decide), if_neg (by decide), if_pos rfl]

/-- The value domain of a descriptor, as the round-trip claim fixes it: a
boolean for the checkbox kinds, an integer for `number`, a string for the
capture kinds (a member of the configured options for `dropdown`), and — for
an inherit-enabled color descriptor — a member of the codec's decoded range
`{inherit, transparent}`. -/
def ValueInDomain (cfg : SettingConfig) (v : SettingValue) : Prop :=
  (cfg.type_ = ("checkbox").toList → ∃ b, v = .b b) ∧
  (cfg.type_ = ("re_checkbox").toList → ∃ b, v = .b b) ∧
  (cfg.type_ = ("number").toList → ∃ n, v = .i n) ∧
  (cfg.type_ = ("text").toList → ∃ s2, v = .s s2) ∧
  (cfg.type_ = ("shortcut").toList → ∃ s2, v = .s s2) ∧
  (cfg.type_ = ("font_family").toList → ∃ s2, v = .s s2) ∧
  (cfg.type_ = ("dropdown").toList → ∃ s2, v = .s s2 ∧ s2 ∈ cfg.options) ∧
  (cfg.type_ = ("color").toList →
    if cfg.with_inherit_option then
      v = .s (("inherit").toList) ∨ v = .s (("transparent").toList)
    else ∃ s2, v = .s s2)

/-- Re-locating the rewritten section reads back exactly the encoded value:
group 1 of the pattern's first match in the rewritten section captures the
literal the codec wrote (for the pair codec: the rewritten section is in
exactly the state the boolean denotes).  The round-trip counterexample shows
this is what the first-occurrence textual replacement can violate. -/
def ReadsBack (cfg : SettingConfig) (s2 : PyStr) (v : SettingValue) : Prop :=
  (cfg.type_ = ("checkbox").toList →
    groupOf cfg s2 = some (if v.truthy then ("true").toList else ("false").toList)) ∧
  (cfg.type_ = ("re_checkbox").toList →
    (v.truthy = true →
      ReCheckboxSetting.checkedIn cfg s2 = true ∧ ReCheckboxSetting.uncheckedIn cfg s2 = false) ∧
    (v.truthy = false →
      ReCheckboxSetting.checkedIn cfg s2 = false ∧ ReCheckboxSetting.uncheckedIn cfg s2 = true)) ∧
  (cfg.type_ = ("number").toList →
    ∀ n, v = .i n → groupOf cfg s2 = some (PyString.intToPyStr n)) ∧
  ((cfg.type_ = ("text").toList ∨ cfg.type_ = ("shortcut").toList ∨
      cfg.type_ = ("font_family").toList ∨ cfg.type_ = ("dropdown").toList) →
    ∀ s3, v = .s s3 → groupOf cfg s2 = some s3) ∧
  (cfg.type_ = ("color").toList →
    if cfg.with_inherit_option then
      (v = .s (("inherit").toList) →
        ∃ g, groupOf cfg s2 = some g ∧ g ≠ ("transparent").toList) ∧
      (v = .s (("transparent").toList) → groupOf cfg s2 = some (("transparent").toList))
    else ∀ s3, v = .s s3 → groupOf cfg s2 = some s3)

/-- **C1** (amended).  Round-trip of every implemented codec, for every value
in the descriptor's domain, *provided re-locating the rewritten section reads
back exactly the written literal* (`ReadsBack`): decoding the section obtained
by encoding `v` into a located section yields `v` again.  The unamended claim
— without the `ReadsBack` proviso, and with arbitrary colors in an
inherit-enabled color descriptor's domain — is refuted by
`c1_roundtrip_counterexample`: the first-occurrence textual replacement can
rewrite an earlier equal substring instead of the captured one. -/
theorem c1_roundtrip_within_domain (cfg : SettingConfig) (sec : PyStr) (v : SettingValue)
    (s2 : PyStr)
    (hkind : cfg.type_ ∈ eightKindTags)
    (hdom : ValueInDomain cfg v)
    (hset : NoteTypeSetting.setSettingValue cfg sec v = .ok s2)
    (hread : ReadsBack cfg s2 v) :
    NoteTypeSetting.extractSettingValue cfg s2 = .ok v := by
  simp only [eightKindTags, List.mem_cons, List.not_mem_nil, or_false] at hkind
  rcases hkind with htag | htag | htag | htag | htag | htag | htag | htag
  · -- checkbox
    obtain ⟨b, rfl⟩ := hdom.1 htag
    have hg := hread.1 htag
    obtain ⟨m, hm, hcap⟩ := Option.bind_eq_some.mp hg
    rw [extract_dispatch_checkbox cfg s2 htag]
    cases b with
    | true =>
        simp only [SettingValue.truthy, if_true] at hcap
        simp [CheckboxSetting.extractValue, hm, hcap]
    | false =>
        simp only [SettingValue.truthy, Bool.false_eq_true, if_false] at hcap
        simp [CheckboxSetting.extractValue, hm, hcap]
  · -- re_checkbox
    obtain ⟨b, rfl⟩ := hdom.2.1 htag
    have hrb := hread.2.1 htag
    rw [extract_dispatch_re_checkbox cfg s2 htag]
    cases b with
    | true =>
        obtain ⟨hc, hu⟩ := hrb.1 rfl
        simp [ReCheckboxSetting.extractValue, hc, hu]
    | false =>
        obtain ⟨hc, hu⟩ := hrb.2 rfl
        simp [ReCheckboxSetting.extractValue, hc, hu]
  · -- text
    obtain ⟨s3, rfl⟩ := hdom.2.2.2.1 htag
    have hg := hread.2.2.2.1 (Or.inl htag) s3 rfl
    obtain ⟨m, hm, hcap⟩ := Option.bind_eq_some.mp hg
    rw [extract_dispatch_text cfg s2 htag]
    simp [LineEditSetting.extractValue, hm, hcap]
  · -- number
    obtain ⟨n, rfl⟩ := hdom.2.2.1 htag
    have hg := hread.2.2.1 htag n rfl
    obtain ⟨m, hm, hcap⟩ := Option.bind_eq_some.mp hg
    rw [extract_dispatch_number cfg s2 htag]
    simp [NumberEditSetting.extractValue, hm, hcap, PyString.pyInt_intToPyStr]
  · -- shortcut
    obtain ⟨s3, rfl⟩ := hdom.2.2.2.2.1 htag
    have hg := hread.2.2.2.1 (Or.inr (Or.inl htag)) s3 rfl
    obtain ⟨m, hm, hcap⟩ := Option.bind_eq_some.mp hg
    rw [extract_dispatch_shortcut cfg s2 htag]
    simp [ShortcutSetting.extractValue, LineEditSetting.extractValue, hm, hcap]
  · -- dropdown
    obtain ⟨s3, rfl, -⟩ := hdom.2.2.2.2.2.2.1 htag
    have hg := hread.2.2.2.1 (Or.inr (Or.inr (Or.inr htag))) s3 rfl
    obtain ⟨m, hm, hcap⟩ := Option.bind_eq_some.mp hg
    rw [extract_dispatch_dropdown cfg s2 htag]
    simp [DropdownSetting.extractValue, LineEditSetting.extractValue, hm, hcap]
  · -- color
    have hdomc := hdom.2.2.2.2.2.2.2 htag
    have hreadc := hread.2.2.2.2 htag
    rw [extract_dispatch_color cfg s2 htag]
    by_cases hw : cfg.with_inherit_option
    · rw [if_pos hw] at hdomc hreadc
      rcases hdomc with rfl | rfl
      · obtain ⟨g, hg, hne⟩ := hreadc.1 rfl
        obtain ⟨m, hm, hcap⟩ := Option.bind_eq_some.mp hg
        simp [ColorSetting.extractValue, hm, hcap, hw, hne]
        intro hcontra
        exact absurd (by simpa using hcontra) hne
      · have hg := hreadc.2 rfl
        obtain ⟨m, hm, hcap⟩ := Option.bind_eq_some.mp hg
        simp [ColorSetting.extractValue, hm, hcap, hw]
    · rw [if_neg hw] at hdomc hreadc
      obtain ⟨s3, rfl⟩ := hdomc
      have hg := hreadc s3 rfl
      obtain ⟨m, hm, hcap⟩ := Option.bind_eq_some.mp hg
      simp only [Bool.not_eq_true] at hw
      simp [ColorSetting.extractValue, hm, hcap, hw]
  · -- font_family
    obtain ⟨s3, rfl⟩ := hdom.2.2.2.2.2.1 htag
    have hg := hread.2.2.2.1 (Or.inr (Or.inr (Or.inl htag))) s3 rfl
    obtain ⟨m, hm, hcap⟩ := Option.bind_eq_some.mp hg
    rw [extract_dispatch_font_family cfg s2 htag]
    simp [FontFamilySetting.extractValue, LineEditSetting.extractValue, hm, hcap]

/-- Example input data: a style-blob section in which the current font size's
digits also occur earlier (in an unrelated property). -/
def c1Section : PyStr := ("html \x7b margin: 30px; font-size: 30px;").toList

/-- What the number codec actually produces on `c1Section` for target 42:
`str.replace("30", "42", 1)` rewrites the margin, not the font size. -/
def c1Rewritten : PyStr := ("html \x7b margin: 42px; font-size: 30px;").toList

/-- **C1** counterexample.  `c1Section` is a located section of the
`font_size` descriptor (the pattern's first match in it is the whole of it),
and 42 is in the descriptor's integer domain; yet encoding 42 and decoding
the result yields 30, because the first-occurrence replacement rewrote the
`margin` digits.  This refutes the claim as stated. -/
theorem c1_roundtrip_counterexample :
    (reSearch fontSizeRegex c1Section).map (fun m => (m.start, m.stop)) =
      some (0, c1Section.length) ∧
    NoteTypeSetting.setSettingValue fontSizeConfig c1Section (.i 42) = .ok c1Rewritten ∧
    NoteTypeSetting.extractSettingValue fontSizeConfig c1Rewritten = .ok (.i 30) ∧
    SettingValue.i 30 ≠ SettingValue.i 42 ∧
    fontSizeConfig.type_ ∈ eightKindTags ∧
    ValueInDomain fontSizeConfig (.i 42) := by
  refine ⟨by decide, by decide, by decide, by decide, by decide, ?_⟩
  exact ⟨fun h => absurd h (by decide), fun h => absurd h (by decide),
    fun _ => ⟨42, rfl⟩, fun h => absurd h (by decide), fun h => absurd h (by decide),
    fun h => absurd h (by decide), fun h => absurd h (by decide), fun h => absurd h (by decide)⟩

/-- **C1** witness: the amended round-trip applied to the `timer_secs` number
descriptor on section `var seconds = 9` with target value 30, where
re-location does read back the written literal. -/
theorem c1_roundtrip_witness :
    NoteTypeSetting.extractSettingValue timerSecsConfig (("var seconds = 30").toList) =
      .ok (.i 30) := by
  apply c1_roundtrip_within_domain timerSecsConfig (("var seconds = 9").toList) (.i 30)
      (("var seconds = 30").toList)
  · decide
  · exact ⟨fun h => absurd h (by decide), fun h => absurd h (by decide),
      fun _ => ⟨30, rfl⟩, fun h => absurd h (by decide), fun h => absurd h (by decide),
      fun h => absurd h (by decide), fun h => absurd h (by decide), fun h => absurd h (by decide)⟩
  · decide
  · refine ⟨fun h => absurd h (by decide), fun h => absurd h (by decide), ?_,
      fun h => by rcases h with h | h | h | h <;> exact absurd h (by decide),
      fun h => absurd h (by decide)⟩
    intro _ n hn
    injection hn with h
    subst h
    decide

/-! ## Locality and mutation of `updated_model` -/

/-- The front blob a holder of `model` observes through the heap. -/
def blobFront (model : Model) (heap : Heap) : Option PyStr :=
  match heap.getD model.tmpls [] with
  | [t] => some t.qfmt
  | _ => none

/-- The back blob a holder of `model` observes through the heap. -/
def blobBack (model : Model) (heap : Heap) : Option PyStr :=
  match heap.getD model.tmpls [] with
  | [t] => some t.afmt
  | _ => none

/-- Evaluation of `updated_model` once its fallible steps are fixed: the
rewritten blob is the old blob with the located section's first occurrence
replaced, written to the shared template list (front/back) or to the copy's
`css` (anything else). -/
theorem updatedModel_eq (cfg : SettingConfig) (model : Model) (notetypeName : PyStr)
    (conf : Conf) (heap : Heap) (text : PyStr) (m : ReMatch) (v : SettingValue)
    (processed : PyStr) (t : Template)
    (htext : NoteTypeSetting.relevantTemplateText cfg model heap = .ok text)
    (hm : reSearch cfg.regex text = some m)
    (hconf : confGet conf (NoteTypeSetting.key cfg notetypeName) = .ok v)
    (hset : NoteTypeSetting.setSettingValue cfg (m.matchedStr text) v = .ok processed)
    (hwf : heap.getD model.tmpls [] = [t]) :
    NoteTypeSetting.updatedModel cfg model notetypeName conf heap =
      (if cfg.file = ("front").toList then
        .ok (model, heap.set model.tmpls
          [{ t with qfmt := pyReplace1 text (m.matchedStr text) processed }])
      else if cfg.file = ("back").toList then
        .ok (model, heap.set model.tmpls
          [{ t with afmt := pyReplace1 text (m.matchedStr text) processed }])
      else
        .ok ({ model with css := pyReplace1 text (m.matchedStr text) processed }, heap)) := by
  unfold NoteTypeSetting.updatedModel
  simp only [bind, Except.bind, htext, hm, hconf, hset, hwf]

theorem getD_default_of_le {α : Type} (l : List α) (n : Nat) (d : α) (h : l.length ≤ n) :
    l.getD n d = d := by
  induction l generalizing n with
  | nil => cases n <;> rfl
  | cons x t ih =>
      cases n with
      | zero => simp at h
      | succ k => simpa [List.getD] using ih k (by simpa using h)

theorem tmpls_lt_of_getD {heap : Heap} {r : Nat} {t : Template}
    (hwf : heap.getD r [] = [t]) : r < heap.length := by
  by_contra hge
  rw [getD_default_of_le heap r [] (not_lt.mp hge)] at hwf
  exact List.noConfusion hwf

/-- **C2**.  Locality of encode: when the locator matches (and the located
occurrence is the first occurrence of its text, which Python's leftmost
`re.search` guarantees), `updated_model` succeeds and, in the returned model,
only the located section's bytes within the one blob named by the config's
`file` key change: the bytes before and after the section, the two other
blobs, and all other model fields are identical to the input's. -/
theorem c2_updated_model_locality (cfg : SettingConfig) (model : Model)
    (notetypeName : PyStr) (conf : Conf) (heap : Heap) (text sec : PyStr) (m : ReMatch)
    (v : SettingValue) (processed : PyStr) (pre post : PyStr) (t : Template)
    (htext : NoteTypeSetting.relevantTemplateText cfg model heap = .ok text)
    (hm : reSearch cfg.regex text = some m)
    (hsec : m.matchedStr text = sec)
    (hconf : confGet conf (NoteTypeSetting.key cfg notetypeName) = .ok v)
    (hset : NoteTypeSetting.setSettingValue cfg sec v = .ok processed)
    (hwf : heap.getD model.tmpls [] = [t])
    (hdec : text = pre ++ sec ++ post)
    (hfirst : ∀ i, PyString.OccursAt sec text i → pre.length ≤ i) :
    ∃ m2 h2, NoteTypeSetting.updatedModel cfg model notetypeName conf heap = .ok (m2, h2) ∧
      m2.name = model.name ∧ m2.tmpls = model.tmpls ∧ m2.extraFields = model.extraFields ∧
      (cfg.file = ("front").toList →
        blobFront m2 h2 = some (pre ++ processed ++ post) ∧
        blobBack m2 h2 = blobBack model heap ∧ m2.css = model.css) ∧
      (cfg.file = ("back").toList →
        blobBack m2 h2 = some (pre ++ processed ++ post) ∧
        blobFront m2 h2 = blobFront model heap ∧ m2.css = model.css) ∧
      (cfg.file ≠ ("front").toList → cfg.file ≠ ("back").toList →
        m2.css = pre ++ processed ++ post ∧
        blobFront m2 h2 = blobFront model heap ∧ blobBack m2 h2 = blobBack model heap) := by
  have hvalid : model.tmpls < heap.length := tmpls_lt_of_getD hwf
  have hrepl : pyReplace1 text sec processed = pre ++ processed ++ post := by
    rw [hdec]
    refine pyReplace1_first_occurrence _ _ _ _ (fun i hocc => ?_)
    exact hfirst i (hdec ▸ hocc)
  have heq := updatedModel_eq cfg model notetypeName conf heap text m v processed t
    htext hm hconf (hsec ▸ hset) hwf
  rw [hsec, hrepl] at heq
  by_cases hf : cfg.file = ("front").toList
  · rw [if_pos hf] at heq
    refine ⟨model, _, heq, rfl, rfl, rfl, fun _ => ?_, fun hb => ?_, fun hnf _ => ?_⟩
    · refine ⟨?_, ?_, rfl⟩
      · show blobFront model _ = _
        unfold blobFront
        rw [getD_set_self heap model.tmpls _ [] hvalid]
      · show blobBack model _ = _
        unfold blobBack
        rw [getD_set_self heap model.tmpls _ [] hvalid, hwf]
    · exact absurd (hf ▸ hb) (by decide)
    · exact absurd hf hnf
  · rw [if_neg hf] at heq
    by_cases hb : cfg.file = ("back").toList
    · rw [if_pos hb] at heq
      refine ⟨model, _, heq, rfl, rfl, rfl, fun hf2 => absurd hf2 hf, fun _ => ?_,
        fun _ hnb => absurd hb hnb⟩
      refine ⟨?_, ?_, rfl⟩
      · show blobBack model _ = _
        unfold blobBack
        rw [getD_set_self heap model.tmpls _ [] hvalid]
      · show blobFront model _ = _
        unfold blobFront
        rw [getD_set_self heap model.tmpls _ [] hvalid, hwf]
    · rw [if_neg hb] at heq
      refine ⟨_, heap, heq, rfl, rfl, rfl, fun hf2 => absurd hf2 hf,
        fun hb2 => absurd hb2 hb, fun _ _ => ⟨rfl, rfl, rfl⟩⟩

/-! ## Shared example data for concrete runs -/

/-- Example template: front blob carrying the `autoflip` and `timer_secs`
fragments. -/
def exTemplate : Template :=
  { qfmt := ("var autoflip = true\nvar seconds = 9").toList
    afmt := ("back blob").toList }

/-- Example model whose `tmpls` list lives at heap reference 0; its style
blob contains no `font-size` fragment. -/
def exModel : Model :=
  { name := ("AnKingOverhaul").toList
    css := ("style blob").toList
    tmpls := 0 }

/-- Example heap holding `exModel`'s template list. -/
def exHeap : Heap := [[exTemplate]]

/-- Example config values for the three descriptors used in the runs. -/
def exConf : Conf :=
  [(NoteTypeSetting.key autoflipConfig exModel.name, .b false),
   (NoteTypeSetting.key timerSecsConfig exModel.name, .i 30),
   (NoteTypeSetting.key fontSizeConfig exModel.name, .i 12)]

/-- **C2** witness: the locality theorem applied to the `autoflip` descriptor
on `exModel`, every hypothesis discharged on concrete data. -/
theorem c2_updated_model_locality_witness :
    ∃ m2 h2,
      NoteTypeSetting.updatedModel autoflipConfig exModel exModel.name exConf exHeap =
        .ok (m2, h2) ∧
      blobFront m2 h2 =
        some ([] ++ ("var autoflip = false").toList ++ ("\nvar seconds = 9").toList) ∧
      blobBack m2 h2 = blobBack exModel exHeap ∧ m2.css = exModel.css := by
  obtain ⟨m2, h2, hupd, -, -, -, hfront, -, -⟩ :=
    c2_updated_model_locality autoflipConfig exModel exModel.name exConf exHeap
      (("var autoflip = true\nvar seconds = 9").toList)
      (("var autoflip = true").toList)
      ⟨0, 19, [(1, 15, 19)]⟩ (.b false) (("var autoflip = false").toList)
      [] (("\nvar seconds = 9").toList) exTemplate
      (by decide) (by decide) (by decide) (by decide) (by decide) (by decide) (by decide)
      (fun i _ => Nat.zero_le i)
  obtain ⟨hf1, hf2, hf3⟩ := hfront (by decide)
  exact ⟨m2, h2, hupd, hf1, hf2, hf3⟩

/-! ## The color codec's inherit behavior -/

/-- **C3** (amended).  For an inherit-enabled color descriptor and a target
value other than `transparent`, the decoded current value is the virtual
token (`inherit`, or `transparent` when that is the stored token), and encode
replaces the first occurrence of *that decoded value*: when the decoded value
is `inherit` the section is returned unchanged (replacing `inherit` by itself
— in particular, a stored color literal such as `red` is *not* overwritten
with `inherit`, refuting the claim as stated, see
`c3_color_inherit_counterexample`); only when the stored token is
`transparent` is `inherit` actually written over it. -/
theorem c3_color_inherit_encode (cfg : SettingConfig) (sec : PyStr) (v : SettingValue)
    (cur : PyStr)
    (hw : cfg.with_inherit_option = true)
    (hv : pyNeTransparent v = true)
    (hcur : ColorSetting.extractValue cfg sec = .ok (.s cur)) :
    (cur = ("inherit").toList ∨ cur = ("transparent").toList) ∧
    (cur = ("inherit").toList → ColorSetting.setValue cfg sec v = .ok sec) ∧
    (cur = ("transparent").toList →
      ColorSetting.setValue cfg sec v =
        .ok (pyReplace1 sec (("transparent").toList) (("inherit").toList))) := by
  have hrange : cur = ("inherit").toList ∨ cur = ("transparent").toList := by
    unfold ColorSetting.extractValue at hcur
    match hm : reSearch cfg.regex sec with
    | none => simp [hm] at hcur
    | some m =>
        simp only [hm] at hcur
        match hg : m.groupStr 1 sec with
        | none => simp [hg] at hcur
        | some g =>
            simp only [hg] at hcur
            by_cases hgt : g = ("transparent").toList
            · right
              rw [if_neg (by simp [hgt])] at hcur
              have h1 := SettingValue.s.inj (Except.ok.inj hcur)
              rw [← h1, hgt]
            · left
              rw [if_pos (by
                simp only [hw, Bool.true_and, decide_eq_true_eq]
                exact hgt)] at hcur
              have h1 := SettingValue.s.inj (Except.ok.inj hcur)
              rw [← h1]
  have hsetrun : ColorSetting.setValue cfg sec v =
      .ok (pyReplace1 sec cur (("inherit").toList)) := by
    unfold ColorSetting.setValue
    simp only [bind, Except.bind, hcur]
    rw [if_pos (by simp [hw, hv])]
  refine ⟨hrange, fun hcur_inh => ?_, fun hcur_tr => ?_⟩
  · rw [hsetrun, hcur_inh, pyReplace1_self]
  · rw [hsetrun, hcur_tr]

/-- Example input data: a located section of `bold_text_color` whose stored
token is the concrete color `red`. -/
def c3Section : PyStr := ("b \x7bcolor: red;").toList

/-- **C3** counterexample.  On a section storing `red`, encoding `blue`
through the inherit-enabled color codec returns the section *unchanged*: no
`inherit` token is written in place of the stored token. -/
theorem c3_color_inherit_counterexample :
    ColorSetting.extractValue boldTextColorConfig c3Section = .ok (.s (("inherit").toList)) ∧
    ColorSetting.setValue boldTextColorConfig c3Section (.s (("blue").toList)) =
      .ok c3Section ∧
    PyString.isSubstring (("inherit").toList) c3Section = false ∧
    PyString.isSubstring (("red").toList) c3Section = true := by
  exact ⟨by decide, by decide, by decide, by decide⟩

/-- **C3** witness: the amended theorem applied to `bold_text_color` on
`c3Section` with target `blue`. -/
theorem c3_color_inherit_encode_witness :
    ColorSetting.setValue boldTextColorConfig c3Section (.s (("blue").toList)) =
      .ok c3Section := by
  exact (c3_color_inherit_encode boldTextColorConfig c3Section (.s (("blue").toList))
    (("inherit").toList) (by decide) (by decide) (by decide)).2.1 rfl

/-! ## Shallow copy and in-place mutation -/

/-- **C6** (amended).  `model.copy()` copies the top-level dict only, so the
copy shares the `tmpls` list with the input.  For a style descriptor the heap
is untouched — the input model observes its old blobs after the call.  For a
front/back descriptor the returned "copy" equals the input dict and the
rewrite lands in the *shared* template list, so after the call the input
model observes the rewritten front/back blob, not its original bytes —
refuting the claim that the input's blobs stay byte-identical
(`c6_no_mutation_counterexample`). -/
theorem c6_shallow_copy_mutation (cfg : SettingConfig) (model : Model)
    (notetypeName : PyStr) (conf : Conf) (heap : Heap) (text sec : PyStr) (m : ReMatch)
    (v : SettingValue) (processed : PyStr) (t : Template)
    (htext : NoteTypeSetting.relevantTemplateText cfg model heap = .ok text)
    (hm : reSearch cfg.regex text = some m)
    (hsec : m.matchedStr text = sec)
    (hconf : confGet conf (NoteTypeSetting.key cfg notetypeName) = .ok v)
    (hset : NoteTypeSetting.setSettingValue cfg sec v = .ok processed)
    (hwf : heap.getD model.tmpls [] = [t]) :
    ∃ m2 h2, NoteTypeSetting.updatedModel cfg model notetypeName conf heap = .ok (m2, h2) ∧
      (cfg.file ≠ ("front").toList → cfg.file ≠ ("back").toList →
        h2 = heap ∧ m2.tmpls = model.tmpls ∧
        blobFront model h2 = blobFront model heap ∧
        blobBack model h2 = blobBack model heap) ∧
      (cfg.file = ("front").toList →
        m2 = model ∧ blobFront model h2 = some (pyReplace1 text sec processed)) ∧
      (cfg.file = ("back").toList →
        m2 = model ∧ blobBack model h2 = some (pyReplace1 text sec processed)) := by
  have hvalid : model.tmpls < heap.length := tmpls_lt_of_getD hwf
  have heq := updatedModel_eq cfg model notetypeName conf heap text m v processed t
    htext hm hconf (hsec ▸ hset) hwf
  rw [hsec] at heq
  by_cases hf : cfg.file = ("front").toList
  · rw [if_pos hf] at heq
    refine ⟨model, _, heq, fun hnf _ => absurd hf hnf, fun _ => ⟨rfl, ?_⟩,
      fun hb => absurd (hf ▸ hb) (by decide)⟩
    unfold blobFront
    rw [getD_set_self heap model.tmpls _ [] hvalid]
  · rw [if_neg hf] at heq
    by_cases hb : cfg.file = ("back").toList
    · rw [if_pos hb] at heq
      refine ⟨model, _, heq, fun _ hnb => absurd hb hnb, fun hf2 => absurd hf2 hf,
        fun _ => ⟨rfl, ?_⟩⟩
      unfold blobBack
      rw [getD_set_self heap model.tmpls _ [] hvalid]
    · rw [if_neg hb] at heq
      exact ⟨_, heap, heq, fun _ _ => ⟨rfl, rfl, rfl, rfl⟩,
        fun hf2 => absurd hf2 hf, fun hb2 => absurd hb2 hb⟩

/-- The heap after the `autoflip` run of `c6_no_mutation_counterexample`:
the single shared template list now carries the rewritten front blob. -/
def exHeap2 : Heap :=
  [[{ qfmt := ("var autoflip = false\nvar seconds = 9").toList
      afmt := ("back blob").toList }]]

/-- **C6** counterexample.  `updated_model` on a front descriptor: after the
call the *input* model's front blob (read through the shared `tmpls` list)
is the rewritten text, not its original bytes — the input is mutated in
place. -/
theorem c6_no_mutation_counterexample :
    NoteTypeSetting.updatedModel autoflipConfig exModel exModel.name exConf exHeap =
      .ok (exModel, exHeap2) ∧
    blobFront exModel exHeap = some (("var autoflip = true\nvar seconds = 9").toList) ∧
    blobFront exModel exHeap2 = some (("var autoflip = false\nvar seconds = 9").toList) ∧
    blobFront exModel exHeap2 ≠ blobFront exModel exHeap := by
  exact ⟨by decide, by decide, by decide, by decide⟩

/-- **C6** witness: the amended theorem applied to the style-blob descriptor
`bold_text_color` on a model whose style blob stores `red`; the style write
leaves the heap — the input model's view — untouched. -/
theorem c6_shallow_copy_mutation_witness :
    ∃ m2 h2,
      NoteTypeSetting.updatedModel boldTextColorConfig
        { name := ("AnKingOverhaul").toList, css := ("b \x7bcolor: red;").toList, tmpls := 0 }
        (("AnKingOverhaul").toList)
        [(NoteTypeSetting.key boldTextColorConfig (("AnKingOverhaul").toList), .s (("blue").toList))]
        [[exTemplate]] = .ok (m2, h2) ∧
      h2 = [[exTemplate]] := by
  obtain ⟨m2, h2, hupd, hstyle, -, -⟩ :=
    c6_shallow_copy_mutation boldTextColorConfig
      { name := ("AnKingOverhaul").toList, css := ("b \x7bcolor: red;").toList, tmpls := 0 }
      (("AnKingOverhaul").toList)
      [(NoteTypeSetting.key boldTextColorConfig (("AnKingOverhaul").toList), .s (("blue").toList))]
      [[exTemplate]]
      (("b \x7bcolor: red;").toList) (("b \x7bcolor: red;").toList)
      ⟨0, 14, [(1, 10, 13)]⟩ (.s (("blue").toList)) (("b \x7bcolor: red;").toList)
      exTemplate
      (by decide) (by decide) (by decide) (by decide) (by decide) (by decide)
  exact ⟨m2, h2, hupd, (hstyle (by decide) (by decide)).1⟩

/-! ## Partial-failure isolation of the batch encode -/

/-- The all-or-error sequential application of a list of settings (the loop
body of `safe_update_model` without its exception handler). -/
def runUpdates (conf : Conf) : List SettingConfig → Model → Heap → Except PyExc (Model × Heap)
  | [], m, h => .ok (m, h)
  | nts :: rest, m, h =>
      match NoteTypeSetting.updatedModel nts m m.name conf h with
      | .ok (m2, h2) => runUpdates conf rest m2 h2
      | .error e => .error e

theorem safeGo_append_of_runUpdates_ok (conf : Conf) :
    ∀ ntss (model : Model) (heap : Heap) m1 h1 (rest : List SettingConfig) pe,
      runUpdates conf ntss model heap = .ok (m1, h1) →
      safeUpdateModelGo conf (ntss ++ rest) model heap pe =
        safeUpdateModelGo conf rest m1 h1 pe := by
  intro ntss
  induction ntss with
  | nil =>
      intro model heap m1 h1 rest pe hrun
      obtain ⟨h1, h2⟩ := Prod.mk.injEq .. ▸ Except.ok.inj hrun
      subst h1
      subst h2
      rfl
  | cons nts t ih =>
      intro model heap m1 h1 rest pe hrun
      unfold runUpdates at hrun
      show (match NoteTypeSetting.updatedModel nts model model.name conf heap with
        | .ok (m2, h2) => safeUpdateModelGo conf (t ++ rest) m2 h2 pe
        | .error (.notetypeParseException msg) =>
            safeUpdateModelGo conf (t ++ rest) model heap (some (.notetypeParseException msg))
        | .error e => .error e) = _
      match hstep : NoteTypeSetting.updatedModel nts model model.name conf heap with
      | .ok (m2, h2) =>
          rw [hstep] at hrun
          exact ih m2 h2 m1 h1 rest pe hrun
      | .error e =>
          rw [hstep] at hrun
          exact absurd hrun (by simp)

theorem safeGo_of_runUpdates_ok (conf : Conf) :
    ∀ ntss (model : Model) (heap : Heap) m1 h1 pe,
      runUpdates conf ntss model heap = .ok (m1, h1) →
      safeUpdateModelGo conf ntss model heap pe = .ok (m1, h1, pe) := by
  intro ntss model heap m1 h1 pe hrun
  have h := safeGo_append_of_runUpdates_ok conf ntss model heap m1 h1 [] pe hrun
  rw [List.append_nil] at h
  rw [h]
  rfl

/-- **C4**.  Partial-failure isolation: when, in the sequential batch, every
setting before and after the one failing setting succeeds and that one raises
the locate/parse exception, `safe_update_model` returns normally (no
exception escapes), with all other rewrites applied, and reports exactly that
one failure. -/
theorem c4_partial_failure_isolation (pre : List SettingConfig) (bad : SettingConfig)
    (post : List SettingConfig) (model : Model) (heap : Heap) (conf : Conf)
    (m1 : Model) (h1 : Heap) (m2 : Model) (h2 : Heap) (emsg : PyStr)
    (hpre : runUpdates conf pre model heap = .ok (m1, h1))
    (hbad : NoteTypeSetting.updatedModel bad m1 m1.name conf h1 =
      .error (.notetypeParseException emsg))
    (hpost : runUpdates conf post m1 h1 = .ok (m2, h2)) :
    safe_update_model (pre ++ bad :: post) model heap conf =
      .ok (m2, h2, some (.notetypeParseException emsg)) := by
  unfold safe_update_model
  rw [safeGo_append_of_runUpdates_ok conf pre model heap m1 h1 (bad :: post) none hpre]
  show (match NoteTypeSetting.updatedModel bad m1 m1.name conf h1 with
    | .ok (m3, h3) => safeUpdateModelGo conf post m3 h3 none
    | .error (.notetypeParseException msg) =>
        safeUpdateModelGo conf post m1 h1 (some (.notetypeParseException msg))
    | .error e => .error e) = _
  rw [hbad]
  exact safeGo_of_runUpdates_ok conf post m1 h1 m2 h2 (some (.notetypeParseException emsg)) hpost

/-- The heap after both front-blob rewrites of the **C4** witness run. -/
def exHeap3 : Heap :=
  [[{ qfmt := ("var autoflip = false\nvar seconds = 30").toList
      afmt := ("back blob").toList }]]

/-- **C4** witness: a 3-setting batch on `exModel` in which `font_size`
(whose pattern is absent from the style blob) fails and the other two
rewrites are both applied, with exactly the one failure reported. -/
theorem c4_partial_failure_isolation_witness :
    safe_update_model [autoflipConfig, fontSizeConfig, timerSecsConfig] exModel exHeap exConf =
      .ok (exModel, exHeap3, some (.notetypeParseException (("font_size").toList))) := by
  exact c4_partial_failure_isolation [autoflipConfig] fontSizeConfig [timerSecsConfig]
    exModel exHeap exConf exModel exHeap2 exModel exHeap3 (("font_size").toList)
    (by decide) (by decide) (by decide)

/-! ## Aggregation behavior of the settings read-in -/

/-- Expected config after a read-in run in which every failure is a parse
exception: the decoded value of every succeeding descriptor is recorded. -/
def readInNtssConfSpec (model : Model) (heap : Heap) (name : PyStr)
    (ntss : List SettingConfig) (conf : Conf) : Conf :=
  ntss.foldl (fun c nts =>
    match NoteTypeSetting.settingValue nts model heap with
    | .ok v => confSet c (NoteTypeSetting.key nts name) v
    | .error _ => c) conf

/-- Expected combined report: one entry per failing descriptor, in order. -/
def readInNtssMsgSpec (model : Model) (heap : Heap) (ntss : List SettingConfig)
    (msg : PyStr) : PyStr :=
  ntss.foldl (fun acc nts =>
    match NoteTypeSetting.settingValue nts model heap with
    | .ok _ => acc
    | .error (.notetypeParseException e) =>
        acc ++ ("failed parsing notetype:\n").toList ++ e ++ ("\n\n").toList
    | .error _ => acc) msg

/-- The config spec lifted over the notetype list. -/
def readInItemsConfSpec :
    List (PyStr × Option Model × List SettingConfig) → Heap → Conf → Conf
  | [], _, conf => conf
  | (_, none, _) :: rest, heap, conf => readInItemsConfSpec rest heap conf
  | (name, some model, ntss) :: rest, heap, conf =>
      readInItemsConfSpec rest heap (readInNtssConfSpec model heap name ntss conf)

/-- The report spec lifted over the notetype list. -/
def readInItemsMsgSpec :
    List (PyStr × Option Model × List SettingConfig) → Heap → PyStr → PyStr
  | [], _, msg => msg
  | (_, none, _) :: rest, heap, msg => readInItemsMsgSpec rest heap msg
  | (_, some model, ntss) :: rest, heap, msg =>
      readInItemsMsgSpec rest heap (readInNtssMsgSpec model heap ntss msg)

theorem readInGoNtss_aggregates (model : Model) (heap : Heap) (name : PyStr) :
    ∀ (ntss : List SettingConfig) (conf : Conf) (msg : PyStr),
      (∀ nts ∈ ntss,
        (∃ v, NoteTypeSetting.settingValue nts model heap = .ok v) ∨
        (∃ e, NoteTypeSetting.settingValue nts model heap =
          .error (.notetypeParseException e))) →
      readInGoNtss model heap name ntss conf msg =
        .ok (readInNtssConfSpec model heap name ntss conf,
          readInNtssMsgSpec model heap ntss msg) := by
  intro ntss
  induction ntss with
  | nil => intro conf msg _; rfl
  | cons nts t ih =>
      intro conf msg hall
      rcases hall nts (List.mem_cons_self nts t) with ⟨v, hv⟩ | ⟨e, he⟩
      · show (match NoteTypeSetting.settingValue nts model heap with
          | .ok v => readInGoNtss model heap name t
              (confSet conf (NoteTypeSetting.key nts name) v) msg
          | .error (.notetypeParseException m) => readInGoNtss model heap name t conf
              (msg ++ ("failed parsing notetype:\n").toList ++ m ++ ("\n\n").toList)
          | .error e => .error e) = _
        rw [hv]
        show readInGoNtss model heap name t
          (confSet conf (NoteTypeSetting.key nts name) v) msg = _
        rw [ih _ msg (fun b hb => hall b (List.mem_cons_of_mem nts hb))]
        show _ = .ok (readInNtssConfSpec model heap name (nts :: t) conf,
          readInNtssMsgSpec model heap (nts :: t) msg)
        unfold readInNtssConfSpec readInNtssMsgSpec
        rw [List.foldl_cons, List.foldl_cons, hv]
      · show (match NoteTypeSetting.settingValue nts model heap with
          | .ok v => readInGoNtss model heap name t
              (confSet conf (NoteTypeSetting.key nts name) v) msg
          | .error (.notetypeParseException m) => readInGoNtss model heap name t conf
              (msg ++ ("failed parsing notetype:\n").toList ++ m ++ ("\n\n").toList)
          | .error e => .error e) = _
        rw [he]
        show readInGoNtss model heap name t conf
          (msg ++ ("failed parsing notetype:\n").toList ++ e ++ ("\n\n").toList) = _
        rw [ih conf _ (fun b hb => hall b (List.mem_cons_of_mem nts hb))]
        show _ = .ok (readInNtssConfSpec model heap name (nts :: t) conf,
          readInNtssMsgSpec model heap (nts :: t) msg)
        unfold readInNtssConfSpec readInNtssMsgSpec
        rw [List.foldl_cons, List.foldl_cons, he]

/-- **C5** (amended).  When every per-descriptor failure in the run raises
the parse exception, the read-in never aborts: it returns the config holding
the decoded value of every succeeding descriptor and the single combined
report with one entry per failing descriptor.  The unamended claim — that
*any* failure, e.g. a non-integer numeric literal, is accumulated — is
refuted by `c5_decode_abort_counterexample`: only `NotetypeParseException` is
caught, and the `ValueError` from `int()` propagates and aborts the whole
decode. -/
theorem c5_read_in_aggregates
    (items : List (PyStr × Option Model × List SettingConfig)) (heap : Heap) (conf0 : Conf)
    (hall : ∀ it ∈ items, ∀ model : Model, it.2.1 = some model → ∀ nts ∈ it.2.2,
      (∃ v, NoteTypeSetting.settingValue nts model heap = .ok v) ∨
      (∃ e, NoteTypeSetting.settingValue nts model heap =
        .error (.notetypeParseException e))) :
    read_in_settings_from_notetypes items heap conf0 =
      .ok (readInItemsConfSpec items heap conf0, readInItemsMsgSpec items heap []) := by
  unfold read_in_settings_from_notetypes
  suffices h : ∀ items2 (conf : Conf) (msg : PyStr),
      (∀ it ∈ items2, ∀ model : Model, it.2.1 = some model → ∀ nts ∈ it.2.2,
        (∃ v, NoteTypeSetting.settingValue nts model heap = .ok v) ∨
        (∃ e, NoteTypeSetting.settingValue nts model heap =
          .error (.notetypeParseException e))) →
      readInGoItems items2 heap conf msg =
        .ok (readInItemsConfSpec items2 heap conf, readInItemsMsgSpec items2 heap msg) by
    exact h items conf0 [] hall
  intro items2
  induction items2 with
  | nil => intro conf msg _; rfl
  | cons it rest ih =>
      intro conf msg hall2
      match it with
      | (name, none, ntss) =>
          show readInGoItems rest heap conf msg = _
          exact ih conf msg (fun b hb => hall2 b (List.mem_cons_of_mem _ hb))
      | (name, some model, ntss) =>
          show (match readInGoNtss model heap name ntss conf msg with
            | .ok (conf2, msg2) => readInGoItems rest heap conf2 msg2
            | .error e => .error e) = _
          rw [readInGoNtss_aggregates model heap name ntss conf msg
            (hall2 _ (List.mem_cons_self _ _) model rfl)]
          exact ih _ _ (fun b hb => hall2 b (List.mem_cons_of_mem _ hb))

/-- Example data: a model whose front blob's `seconds` literal is not an
integer. -/
def c5BadModel : Model :=
  { name := ("AnKingOverhaul").toList, css := ("c").toList, tmpls := 0 }

/-- Heap for `c5BadModel`: `var seconds = abc`. -/
def c5BadHeap : Heap :=
  [[{ qfmt := ("var seconds = abc").toList, afmt := ("b").toList }]]

/-- **C5** counterexample.  A malformed numeric literal makes `int()` raise
`ValueError`, which `read_in_settings_from_notetypes` does not catch: the
whole decode aborts with an exception instead of accumulating an error
entry. -/
theorem c5_decode_abort_counterexample :
    read_in_settings_from_notetypes
      [(c5BadModel.name, some c5BadModel, [timerSecsConfig])] c5BadHeap [] =
      .error .valueError := by
  decide

/-- **C5** witness: the amended theorem applied to a run with one succeeding
(`autoflip`) and one parse-failing (`font_size`) descriptor. -/
theorem c5_read_in_aggregates_witness :
    read_in_settings_from_notetypes
      [(exModel.name, some exModel, [autoflipConfig, fontSizeConfig])] exHeap [] =
      .ok ([(NoteTypeSetting.key autoflipConfig exModel.name, .b true)],
        ("failed parsing notetype:\nfont_size\n\n").toList) := by
  have h := c5_read_in_aggregates
    [(exModel.name, some exModel, [autoflipConfig, fontSizeConfig])] exHeap []
    (by
      intro it hit model hm nts hnts
      simp only [List.mem_singleton] at hit
      subst hit
      simp only [Option.some.injEq] at hm
      subst hm
      simp only [List.mem_cons, List.mem_singleton] at hnts
      rcases hnts with rfl | rfl | h
      · exact Or.inl ⟨.b true, by decide⟩
      · exact Or.inr ⟨("font_size").toList, by decide⟩
      · exact absurd h (List.not_mem_nil nts))
  exact h.trans (by decide)

/-! ## The boolean-pair-presence codec -/

/-- Example section for the `timer` descriptor, in the fully-off state. -/
def c7Section : PyStr := (".timer \x7bdisplay: none;\x7d").toList

/-- Its fully-on counterpart. -/
def c7SectionOn : PyStr := (".timer \x7bdisplay: block;\x7d").toList

/-- **C7**.  The boolean-pair-presence codec: decode yields `true` exactly
when every on-literal is present and not every off-literal is, `false`
exactly when every off-literal is present and not every on-literal is, and
raises the parse exception exactly when the section is in neither or in both
states; and on the concrete `timer` example over `.timer {display: none;}`,
decode yields `false` and encoding `true` yields `.timer {display: block;}`
with no other character changed. -/
theorem c7_re_checkbox_codec (cfg : SettingConfig) (sec : PyStr)
    (hre : cfg.type_ = ("re_checkbox").toList) :
    (NoteTypeSetting.extractSettingValue cfg sec = .ok (.b true) ↔
      (ReCheckboxSetting.checkedIn cfg sec = true ∧
        ReCheckboxSetting.uncheckedIn cfg sec = false)) ∧
    (NoteTypeSetting.extractSettingValue cfg sec = .ok (.b false) ↔
      (ReCheckboxSetting.checkedIn cfg sec = false ∧
        ReCheckboxSetting.uncheckedIn cfg sec = true)) ∧
    (NoteTypeSetting.extractSettingValue cfg sec =
        .error (.notetypeParseException cfg.name) ↔
      ((ReCheckboxSetting.checkedIn cfg sec = false ∧
          ReCheckboxSetting.uncheckedIn cfg sec = false) ∨
        (ReCheckboxSetting.checkedIn cfg sec = true ∧
          ReCheckboxSetting.uncheckedIn cfg sec = true))) ∧
    NoteTypeSetting.extractSettingValue timerConfig c7Section = .ok (.b false) ∧
    NoteTypeSetting.setSettingValue timerConfig c7Section (.b true) = .ok c7SectionOn := by
  rw [extract_dispatch_re_checkbox cfg sec hre]
  unfold ReCheckboxSetting.extractValue
  refine ⟨?_, ?_, ?_, ?_, ?_⟩
  · cases hc : ReCheckboxSetting.checkedIn cfg sec <;>
      cases hu : ReCheckboxSetting.uncheckedIn cfg sec <;> simp
  · cases hc : ReCheckboxSetting.checkedIn cfg sec <;>
      cases hu : ReCheckboxSetting.uncheckedIn cfg sec <;> simp
  · cases hc : ReCheckboxSetting.checkedIn cfg sec <;>
      cases hu : ReCheckboxSetting.uncheckedIn cfg sec <;> simp
  · rw [extract_dispatch_re_checkbox timerConfig c7Section (by decide)]
    decide
  · decide

/-- **C7** witness: the codec characterization applied to the `timer`
descriptor's concrete example. -/
theorem c7_re_checkbox_codec_witness :
    NoteTypeSetting.setSettingValue timerConfig c7Section (.b true) = .ok c7SectionOn :=
  (c7_re_checkbox_codec timerConfig c7Section (by decide)).2.2.2.2

/-! ## Ordering theorems -/

/-- The hint-button sort key in its total form, defined when every tagged
button name occurs in the mapping (`0` on the untagged, which the caller
filters out). -/
def hintBtnKeyD (orderedBtnNames : List PyStr) (nts : SettingConfig) : Int :=
  match nts.hint_button_setting with
  | some s2 => listIndexD orderedBtnNames s2
  | none => 0

theorem mapM_keys_ok {α : Type} (keyE : α → Except PyExc Int) (keyD : α → Int)
    (l : List α) (h : ∀ a ∈ l, keyE a = .ok (keyD a)) :
    l.mapM (fun a => (keyE a).map (fun k => (k, a))) =
      .ok (l.map (fun a => (keyD a, a))) := by
  induction l with
  | nil => rfl
  | cons a t ih =>
      rw [List.mapM_cons, h a (List.mem_cons_self a t),
        ih (fun b hb => h b (List.mem_cons_of_mem a hb))]
      rfl

theorem sortedByKeyE_ok {α : Type} (keyE : α → Except PyExc Int) (keyD : α → Int)
    (l : List α) (h : ∀ a ∈ l, keyE a = .ok (keyD a)) :
    sortedByKeyE keyE l = .ok (sortedByKey keyD l) := by
  unfold sortedByKeyE
  rw [show (do
      let pairs ← l.mapM (fun a => (keyE a).map (fun k => (k, a)))
      Except.ok ((sortPairs pairs).map (fun p => p.2))
      : Except PyExc (List α)) =
    (l.mapM (fun a => (keyE a).map (fun k => (k, a)))).bind
      (fun pairs => Except.ok ((sortPairs pairs).map (fun p => p.2))) from rfl]
  rw [mapM_keys_ok keyE keyD l h]
  rfl

theorem filter_not_mem_filter {α : Type} [DecidableEq α] (l : List α) (p : α → Bool) :
    l.filter (fun a => !decide (a ∈ l.filter p)) = l.filter (fun a => !p a) := by
  apply List.filter_congr
  intro a ha
  by_cases hpa : p a = true
  · have hmem : a ∈ l.filter p := List.mem_filter.mpr ⟨ha, hpa⟩
    simp [hmem, hpa]
  · have hmem : a ∉ l.filter p := fun hc => hpa (List.mem_filter.mp hc).2
    simp [hmem, hpa]

/-- **C8** (amended).  `adjust_hint_button_nts_order` puts the hint-button
settings first, sorted stably by the position of their button name in the
embedded `ButtonShortcuts` mapping, followed by the non-hint settings in
their original relative order — *provided every tagged button name occurs in
the mapping*.  The unamended claim — that an absent name is placed at the end
instead of causing an error — is refuted by `c8_hint_button_counterexample`:
`list.index` raises `ValueError` and the whole ordering fails. -/
theorem c8_hint_button_order (ntss : List SettingConfig) (orderedBtnNames : List PyStr)
    (hall : ∀ nts ∈ ntss, truthyOptStr nts.hint_button_setting = true →
      ∃ s2, nts.hint_button_setting = some s2 ∧ s2 ∈ orderedBtnNames) :
    adjust_hint_button_nts_order ntss orderedBtnNames =
      .ok (sortedByKey (hintBtnKeyD orderedBtnNames)
          (ntss.filter (fun nts => truthyOptStr nts.hint_button_setting)) ++
        ntss.filter (fun nts => !truthyOptStr nts.hint_button_setting)) ∧
    List.Pairwise
      (fun a b => hintBtnKeyD orderedBtnNames a ≤ hintBtnKeyD orderedBtnNames b)
      (sortedByKey (hintBtnKeyD orderedBtnNames)
        (ntss.filter (fun nts => truthyOptStr nts.hint_button_setting))) ∧
    ∀ k, (sortedByKey (hintBtnKeyD orderedBtnNames)
        (ntss.filter (fun nts => truthyOptStr nts.hint_button_setting))).filter
          (fun nts => decide (hintBtnKeyD orderedBtnNames nts = k)) =
      (ntss.filter (fun nts => truthyOptStr nts.hint_button_setting)).filter
        (fun nts => decide (hintBtnKeyD orderedBtnNames nts = k)) := by
  refine ⟨?_, sortedByKey_pairwise _ _, fun k => sortedByKey_stable _ _ k⟩
  unfold adjust_hint_button_nts_order
  have hkeys : ∀ nts ∈ ntss.filter (fun nts => truthyOptStr nts.hint_button_setting),
      hintBtnKey orderedBtnNames nts = .ok (hintBtnKeyD orderedBtnNames nts) := by
    intro nts hmem
    obtain ⟨hin, htr⟩ := List.mem_filter.mp hmem
    obtain ⟨s2, hs2, hs2mem⟩ := hall nts hin htr
    unfold hintBtnKey hintBtnKeyD
    simp only [hs2]
    rw [listIndex_of_mem orderedBtnNames s2 hs2mem]
    rfl
  rw [show (do
      let hintButtonNtss := ntss.filter (fun nts => truthyOptStr nts.hint_button_setting)
      let orderedHintButtonNtss ←
        sortedByKeyE (hintBtnKey orderedBtnNames) hintButtonNtss
      let otherNtss := ntss.filter (fun nts => !decide (nts ∈ hintButtonNtss))
      Except.ok (orderedHintButtonNtss ++ otherNtss)
      : Except PyExc (List SettingConfig)) =
    (sortedByKeyE (hintBtnKey orderedBtnNames)
        (ntss.filter (fun nts => truthyOptStr nts.hint_button_setting))).bind
      (fun sorted => Except.ok (sorted ++ ntss.filter (fun nts =>
        !decide (nts ∈ ntss.filter (fun nts => truthyOptStr nts.hint_button_setting)))))
    from rfl]
  rw [sortedByKeyE_ok _ _ _ hkeys]
  show Except.ok _ = _
  rw [filter_not_mem_filter]

/-- Example data: a hint-button setting tagged with button name `Extra`
(hint-button descriptors are table entries tagged `hint_button_setting`). -/
def exHintExtraConfig : SettingConfig :=
  { name := ("extra_button_shortcut").toList
    setting_name := ("extra_button_shortcut").toList
    type_ := ("shortcut").toList
    file := ("back").toList
    hint_button_setting := some (("Extra").toList)
    ui_section := ("Hint Buttons").toList }

/-- Example data: a hint-button setting tagged with button name
`Definition`. -/
def exHintDefConfig : SettingConfig :=
  { name := ("definition_button_shortcut").toList
    setting_name := ("definition_button_shortcut").toList
    type_ := ("shortcut").toList
    file := ("back").toList
    hint_button_setting := some (("Definition").toList)
    ui_section := ("Hint Buttons").toList }

/-- **C8** counterexample.  A hint-button setting whose button name (`Extra`)
does not occur in the `ButtonShortcuts` mapping order: the ordering does not
place it at the end — `list.index` raises `ValueError` and
`adjust_hint_button_nts_order` produces no list at all. -/
theorem c8_hint_button_counterexample :
    adjust_hint_button_nts_order [exHintExtraConfig] [("Definition").toList] =
      .error .valueError := by
  decide

/-- **C8** witness: the amended ordering applied to two hint-button settings
(listed in the order Extra, Definition) and one plain setting, with mapping
order Definition, Extra: the hint settings come first, reordered to match the
mapping, and the plain setting keeps its place after them. -/
theorem c8_hint_button_order_witness :
    adjust_hint_button_nts_order [exHintExtraConfig, autoflipConfig, exHintDefConfig]
      [("Definition").toList, ("Extra").toList] =
      .ok [exHintDefConfig, exHintExtraConfig, autoflipConfig] := by
  have h := c8_hint_button_order [exHintExtraConfig, autoflipConfig, exHintDefConfig]
    [("Definition").toList, ("Extra").toList]
    (by
      intro nts hmem htr
      simp only [List.mem_cons, List.mem_singleton] at hmem
      rcases hmem with rfl | rfl | rfl | h
      · exact ⟨("Extra").toList, rfl, by decide⟩
      · exact absurd htr (by decide)
      · exact ⟨("Definition").toList, rfl, by decide⟩
      · exact absurd h (List.not_mem_nil nts))
  exact h.1.trans (by decide)

/-- **C9**.  `_adjust_configurable_field_nts_order`: the untagged settings
come first in their original relative order, followed by the tagged settings
sorted stably by the first-appearance index of their field name in the
configurable-field order, with the sentinel `-1` for a name that does not
appear (so unmatched names sort ahead of all matched ones); the ordering is a
pure function, so running it twice on the same input yields identical
sequences. -/
theorem c9_configurable_field_order (ntss : List SettingConfig)
    (orderedFieldNames : List PyStr) :
    adjust_configurable_field_nts_order ntss orderedFieldNames =
      ntss.filter (fun nts => !truthyOptStr nts.configurable_field_name) ++
        sortedByKey (configurableFieldKey orderedFieldNames)
          (ntss.filter (fun nts => truthyOptStr nts.configurable_field_name)) ∧
    List.Pairwise
      (fun a b =>
        configurableFieldKey orderedFieldNames a ≤ configurableFieldKey orderedFieldNames b)
      (sortedByKey (configurableFieldKey orderedFieldNames)
        (ntss.filter (fun nts => truthyOptStr nts.configurable_field_name))) ∧
    (∀ k, (sortedByKey (configurableFieldKey orderedFieldNames)
        (ntss.filter (fun nts => truthyOptStr nts.configurable_field_name))).filter
          (fun nts => decide (configurableFieldKey orderedFieldNames nts = k)) =
      (ntss.filter (fun nts => truthyOptStr nts.configurable_field_name)).filter
        (fun nts => decide (configurableFieldKey orderedFieldNames nts = k))) ∧
    (∀ nts nm, nts.configurable_field_name = some nm → nm ∉ orderedFieldNames →
      configurableFieldKey orderedFieldNames nts = -1) ∧
    (∀ nts nm, nts.configurable_field_name = some nm → nm ∈ orderedFieldNames →
      0 ≤ configurableFieldKey orderedFieldNames nts) ∧
    adjust_configurable_field_nts_order ntss orderedFieldNames =
      adjust_configurable_field_nts_order ntss orderedFieldNames := by
  refine ⟨?_, sortedByKey_pairwise _ _, fun k => sortedByKey_stable _ _ k,
    fun nts nm hnm hnotmem => ?_, fun nts nm hnm hmem => ?_, rfl⟩
  · unfold adjust_configurable_field_nts_order
    show (ntss.filter (fun nts => !decide (nts ∈
        ntss.filter (fun nts => truthyOptStr nts.configurable_field_name)))) ++
      sortedByKey (configurableFieldKey orderedFieldNames)
        (ntss.filter (fun nts => truthyOptStr nts.configurable_field_name)) = _
    rw [filter_not_mem_filter]
  · unfold configurableFieldKey
    simp only [hnm]
    rw [if_neg hnotmem]
  · unfold configurableFieldKey
    simp only [hnm]
    rw [if_pos hmem]
    exact Int.ofNat_nonneg _

/-- Example data: a setting tagged with configurable field `Extra`. -/
def exFieldAConfig : SettingConfig :=
  { name := ("fa").toList
    setting_name := ("fa").toList
    type_ := ("shortcut").toList
    file := ("back").toList
    configurable_field_name := some (("Extra").toList) }

/-- Example data: a setting tagged with a field name absent from the order. -/
def exFieldBConfig : SettingConfig :=
  { name := ("fb").toList
    setting_name := ("fb").toList
    type_ := ("shortcut").toList
    file := ("back").toList
    configurable_field_name := some (("Missing").toList) }

/-- **C9** witness: the ordering on two tagged settings (one with an absent
field name) and one untagged setting — untagged first, then the `-1` sentinel
entry, then the matched one. -/
theorem c9_configurable_field_order_witness :
    adjust_configurable_field_nts_order [exFieldAConfig, autoflipConfig, exFieldBConfig]
      [("Extra").toList] = [autoflipConfig, exFieldBConfig, exFieldAConfig] := by
  have h := c9_configurable_field_order [exFieldAConfig, autoflipConfig, exFieldBConfig]
    [("Extra").toList]
  exact h.1.trans (by decide)

/-! ## Closed dispatch of `from_config` -/

/-- **C10**.  `NoteTypeSetting.from_config` returns a setting object exactly
for the eight known type tags and raises for every other tag; in particular
the table's `field_order` descriptor (tag `order`) and every disable-field
descriptor (tag `wrap_checkbox`) have no constructor case, so building a
setting from them always raises. -/
theorem c10_from_config_closed_dispatch (cfg : SettingConfig) (fieldName : PyStr) :
    ((∃ c, NoteTypeSetting.from_config cfg = .ok c) ↔ cfg.type_ ∈ eightKindTags) ∧
    fieldOrderConfig.type_ = ("order").toList ∧
    NoteTypeSetting.from_config fieldOrderConfig =
      .error (.exception (("unkown NoteTypeSetting type: ").toList ++ ("order").toList)) ∧
    (disable_field_setting_config fieldName).type_ = ("wrap_checkbox").toList ∧
    NoteTypeSetting.from_config (disable_field_setting_config fieldName) =
      .error (.exception
        (("unkown NoteTypeSetting type: ").toList ++ ("wrap_checkbox").toList)) := by
  refine ⟨⟨?_, ?_⟩, by decide, by decide, rfl, rfl⟩
  · rintro ⟨c, hok⟩
    by_contra hnot
    simp only [eightKindTags, List.mem_cons, List.not_mem_nil, or_false, not_or] at hnot
    obtain ⟨h1, h2, h3, h4, h5, h6, h7, h8⟩ := hnot
    unfold NoteTypeSetting.from_config at hok
    rw [if_neg h1, if_neg h2, if_neg h3, if_neg h4, if_neg h5, if_neg h6, if_neg h7,
      if_neg h8] at hok
    exact absurd hok (by simp)
  · intro hmem
    refine ⟨cfg, ?_⟩
    unfold NoteTypeSetting.from_config
    simp only [eightKindTags, List.mem_cons, List.not_mem_nil, or_false] at hmem
    rcases hmem with h | h | h | h | h | h | h | h
    · rw [if_pos h]
    · rw [if_neg (by rw [h]; decide), if_pos h]
    · rw [if_neg (by rw [h]; decide), if_neg (by rw [h]; decide), if_pos h]
    · rw [if_neg (by rw [h]; decide), if_neg (by rw [h]; decide),
        if_neg (by rw [h]; decide), if_pos h]
    · rw [if_neg (by rw [h]; decide), if_neg (by rw [h]; decide),
        if_neg (by rw [h]; decide), if_neg (by rw [h]; decide), if_pos h]
    · rw [if_neg (by rw [h]; decide), if_neg (by rw [h]; decide),
        if_neg (by rw [h]; decide), if_neg (by rw [h]; decide),
        if_neg (by rw [h]; decide), if_pos h]
    · rw [if_neg (by rw [h]; decide), if_neg (by rw [h]; decide),
        if_neg (by rw [h]; decide), if_neg (by rw [h]; decide),
        if_neg (by rw [h]; decide), if_neg (by rw [h]; decide), if_pos h]
    · rw [if_neg (by rw [h]; decide), if_neg (by rw [h]; decide),
        if_neg (by rw [h]; decide), if_neg (by rw [h]; decide),
        if_neg (by rw [h]; decide), if_neg (by rw [h]; decide),
        if_neg (by rw [h]; decide), if_pos h]
